import Mathlib

/-!
# Route create / update handler (`api/server/routes_create_update.go`)

A shallow embedding of the Go handler `handleRouteCreateOrUpdate` and of its three
helpers `bindAndValidate`, `createApp` and `updateOrInsertRoute`.

* Go `error` values are `Option models.Err` (`none` is `nil`), Go pointers that may be
  `nil` are `Option`.
* The datastore, the lifecycle hooks and the functions of package `models` are not part
  of the file; they are fields of the record `Server`.  They act on a world state `σ`.
* Every call to such a collaborator is appended to a call log, so that "calls `X` exactly
  once" and "never calls `X`" are statements about the log.
* A Go run-time panic (`MustGet` on an absent key, a `nil` dereference) is the outcome
  `Outcome.panic`.
* `createApp` hands one `*App` pointer to the validation, the two hooks and `InsertApp`;
  each of these returns the value the pointer holds afterwards, and the next call gets it.
* The `ctx` and `log` arguments are passed through unchanged by the Go code and logging
  has no effect on the results; both are left out.
-/

namespace models

/-- The error values of package `models` that the handler names, and every other error
value (`other`).  Go compares these sentinels by identity, here by constructor. -/
inductive Err where
  | ErrInvalidJSON
  | ErrRoutesMissingNew
  | ErrRoutesPathImmutable
  | ErrRoutesNotFound
  | ErrRoutesCreate
  | ErrAppsNotFound
  | ErrAppsGet
  | ErrAppsCreate
  | other (msg : String)
  deriving DecidableEq, Repr

/-- The type `models.App`: the handler reads and writes only `Name`. -/
structure App where
  Name : String
  deriving DecidableEq, Repr

/-- The type `models.Route`: the handler reads and writes `AppName` and `Path`; the
remaining fields are carried along in `Other`. -/
structure Route where
  AppName : String
  Path : String
  Other : List (String × String)
  deriving DecidableEq, Repr

/-- The type `models.RouteWrapper`: a wrapper around a route pointer that may be `nil`. -/
structure RouteWrapper where
  Route : Option Route
  deriving DecidableEq, Repr

end models

namespace http

/-- Go `http.MethodPost`. -/
def MethodPost : String := "POST"
/-- Go `http.MethodPut`. -/
def MethodPut : String := "PUT"
/-- Go `http.MethodPatch`. -/
def MethodPatch : String := "PATCH"
/-- Go `http.StatusOK`. -/
def StatusOK : Nat := 200
/-- Go `http.StatusBadRequest`. -/
def StatusBadRequest : Nat := 400
/-- Go `http.StatusInternalServerError`. -/
def StatusInternalServerError : Nat := 500

end http

namespace path

/-- The backtracking loop of `path.Clean` for a `..` element, started after the first
`out.w--`: `for out.w > dotdot && out.index(out.w) != '/' { out.w-- }`.  The argument
is `out.w`, the result the final `out.w`. -/
def backLoop (buf : List Char) (dotdot : Nat) : Nat → Nat
  | 0 => 0
  | w + 1 =>
    if w + 1 > dotdot ∧ buf.getD (w + 1) '/' ≠ '/' then backLoop buf dotdot w else w + 1

/-- The main loop `for r < n` of `path.Clean`.  `rest` is `path[r:]`, `out` the bytes
written so far (`out.w` is its length), `dotdot` the index where `..` must stop.  Every
iteration consumes at least one byte of `rest`, so `fuel = len(path)` iterations are
enough (see `cleanLoop_fuel`). -/
def cleanLoop (rooted : Bool) : Nat → List Char → List Char → Nat → List Char
  | 0, _, out, _ => out
  | fuel + 1, rest, out, dotdot =>
    match rest with
    | [] => out
    | c :: rest1 =>
      if c = '/' then
        -- empty path element
        cleanLoop rooted fuel rest1 out dotdot
      else if c = '.' ∧ (rest1 = [] ∨ rest1.head? = some '/') then
        -- . element
        cleanLoop rooted fuel rest1 out dotdot
      else if c = '.' ∧ rest1.head? = some '.' ∧
          (rest1.tail = [] ∨ rest1.tail.head? = some '/') then
        -- .. element: remove to last /
        if out.length > dotdot then
          cleanLoop rooted fuel rest1.tail
            (out.take (backLoop out dotdot (out.length - 1))) dotdot
        else if ¬ rooted then
          let out1 := if out.length > 0 then out ++ ['/'] else out
          let out2 := out1 ++ ['.', '.']
          cleanLoop rooted fuel rest1.tail out2 out2.length
        else
          cleanLoop rooted fuel rest1.tail out dotdot
      else
        -- real path element: add slash if needed, copy element
        let out1 :=
          if (rooted ∧ out.length ≠ 1) ∨ (¬ rooted ∧ out.length ≠ 0) then out ++ ['/']
          else out
        cleanLoop rooted fuel (rest1.dropWhile (· ≠ '/'))
          (out1 ++ c :: rest1.takeWhile (· ≠ '/')) dotdot

/-- Go `path.Clean` (standard library), on the characters of the path.  The function
inspects only the ASCII bytes `/` and `.`, which never occur inside a multi-byte UTF-8
sequence, so working on characters agrees with working on bytes. -/
def Clean (p : String) : String :=
  if p = "" then "."
  else
    let rooted : Bool := p.data.head? = some '/'
    let out :=
      if rooted then
        cleanLoop true p.data.length p.data.tail ['/'] 1
      else
        cleanLoop false p.data.length p.data [] 0
    -- Turn empty string into "."
    if out.length = 0 then "." else String.mk out

end path

namespace server

open models

/-- The Go type `routeResponse`: a message and a route pointer. -/
structure routeResponse where
  Message : String
  Route : Option Route
  deriving DecidableEq, Repr

/-- What is handed to `c.JSON`: `simpleError(err)` or a `routeResponse`. -/
inductive Payload where
  | simpleError (err : Err)
  | resp (r : routeResponse)
  deriving DecidableEq, Repr

/-- One call to a collaborator, with its arguments. -/
inductive Call where
  | GetApp (appName : String)
  | InsertApp (app : App)
  | InsertRoute (route : Option Route)
  | UpdateRoute (route : Option Route)
  | FireBeforeAppCreate (app : App)
  | FireAfterAppCreate (app : App)
  | AppValidate (app : App)
  | SetDefaults (route : Route)
  | Validate (wroute : RouteWrapper) (skipZero : Bool)
  | cacheRefresh (route : Option Route)
  | JSON (code : Nat) (obj : Payload)
  | handleErrorResponse (err : Err)
  deriving DecidableEq, Repr

/-- The interface `models.Datastore`, as far as the handler uses it.  Each operation takes
the world state and returns the Go result pair and the new world state.  `InsertApp` is
handed the `*App` pointer of `createApp` and returns, next to its result pair, the value
that pointer holds afterwards.  The route arguments are Go pointers too; the route
operations are taken not to write through them. -/
structure Datastore (σ : Type) where
  GetApp : String → σ → (Option App × Option Err) × σ
  InsertApp : App → σ → ((Option App × Option Err) × App) × σ
  InsertRoute : Option Route → σ → (Option Route × Option Err) × σ
  UpdateRoute : Option Route → σ → (Option Route × Option Err) × σ

/-- The Go type `Server` together with the functions the handler calls that live outside
the file: the datastore, the two app-creation hooks, and from package `models` the methods
`(*App).Validate`, `(*Route).SetDefaults` and `(*RouteWrapper).Validate`.  The hooks and
`(*App).Validate` get the `*App` pointer of `createApp`: next to their error they return
the value the pointer holds afterwards. -/
structure Server (σ : Type) where
  Datastore : Datastore σ
  FireBeforeAppCreate : App → σ → (Option Err × App) × σ
  FireAfterAppCreate : App → σ → (Option Err × App) × σ
  AppValidate : App → Option Err × App
  SetDefaults : Route → Route
  Validate : RouteWrapper → Bool → Option Err

/-- The part of `*gin.Context` the handler reads.  `Method` is `c.Request.Method`;
`BindJSON w` is the result of `c.BindJSON(&w)`: the error and the new value of `w`;
`ctx` says whether the key `"ctx"` holds a `context.Context`; `AppName` and `Path` are
the values under the keys `api.AppName` and `api.Path` when these hold a string, and
`none` otherwise (then `MustGet(..).(string)` panics). -/
structure Context where
  Method : String
  BindJSON : RouteWrapper → Option Err × RouteWrapper
  ctx : Bool
  AppName : Option String
  Path : Option String

/-- The state threaded through the handler: the world state of the collaborators and the
log of the calls made so far, oldest first. -/
structure St (σ : Type) where
  ds : σ
  calls : List Call
  deriving DecidableEq, Repr

/-- How a Go function ends: it returns a value or it panics. -/
inductive Outcome (α : Type) where
  | ret (a : α)
  | panic
  deriving DecidableEq, Repr

variable {σ : Type}

/-- Append a call to the log. -/
def St.log (st : St σ) (c : Call) : St σ :=
  { st with calls := st.calls ++ [c] }

/-- Run a datastore or hook operation on the world state and log the call. -/
def St.call {α : Type} (st : St σ) (c : Call) (op : σ → α × σ) : α × St σ :=
  ((op st.ds).1, { ds := (op st.ds).2, calls := st.calls ++ [c] })

/-- Go `updateOrInsertRoute`. -/
def updateOrInsertRoute (s : Server σ) (method : String) (wroute : RouteWrapper)
    (st : St σ) : (routeResponse × Option Err) × St σ :=
  let resp : routeResponse := ⟨"Route successfully created", none⟩
  let up : routeResponse := ⟨"Route successfully updated", none⟩
  if method = http.MethodPost then
    let r := st.call (.InsertRoute wroute.Route) (s.Datastore.InsertRoute wroute.Route)
    (({ resp with Route := r.1.1 }, r.1.2), r.2)
  else if method = http.MethodPut then
    let r := st.call (.UpdateRoute wroute.Route) (s.Datastore.UpdateRoute wroute.Route)
    if r.1.2 = some Err.ErrRoutesNotFound then
      -- try insert then
      let r2 := r.2.call (.InsertRoute wroute.Route) (s.Datastore.InsertRoute wroute.Route)
      (({ resp with Route := r2.1.1 }, r2.1.2), r2.2)
    else
      (({ resp with Route := r.1.1 }, r.1.2), r.2)
  else if method = http.MethodPatch then
    let r := st.call (.UpdateRoute wroute.Route) (s.Datastore.UpdateRoute wroute.Route)
    (({ up with Route := r.1.1 }, r.1.2), r.2)
  else
    (({ resp with Route := none }, none), st)

/-- Go `createApp`.  `wroute.Route.AppName` panics when `wroute.Route` is `nil`.  The
pointer `newapp` is followed through the calls: `v.2` is the app after `Validate`, `b.1.2`
after the pre-creation hook, `i.1.2` after `InsertApp`. -/
def createApp (s : Server σ) (wroute : RouteWrapper) (method : String) (st : St σ) :
    Outcome (Option Err) × St σ :=
  if ¬ (method = http.MethodPost ∨ method = http.MethodPut) then
    (.ret none, st)
  else
    match wroute.Route with
    | none => (.panic, st)
    | some route =>
      let g := st.call (.GetApp route.AppName) (s.Datastore.GetApp route.AppName)
      if g.1.2 ≠ none ∧ g.1.2 ≠ some Err.ErrAppsNotFound then
        (.ret (some Err.ErrAppsGet), g.2)
      else if g.1.1 = none then
        -- Create a new application and add the route to that new application
        let newapp : App := { Name := route.AppName }
        let st1 := g.2.log (.AppValidate newapp)
        let v := s.AppValidate newapp
        match v.1 with
        | some err => (.ret (some err), st1)
        | none =>
          let b := st1.call (.FireBeforeAppCreate v.2) (s.FireBeforeAppCreate v.2)
          if b.1.1 ≠ none then
            (.ret (some Err.ErrAppsCreate), b.2)
          else
            let i := b.2.call (.InsertApp b.1.2) (s.Datastore.InsertApp b.1.2)
            if i.1.1.2 ≠ none then
              (.ret (some Err.ErrRoutesCreate), i.2)
            else
              let a := i.2.call (.FireAfterAppCreate i.1.2) (s.FireAfterAppCreate i.1.2)
              if a.1.1 ≠ none then
                (.ret (some Err.ErrRoutesCreate), a.2)
              else
                (.ret none, a.2)
      else
        (.ret none, g.2)

/-- Go `bindAndValidate`.  `wroute` is the value the pointer argument points to on entry;
the second component of the result is the value it points to on return. -/
def bindAndValidate (s : Server σ) (c : Context) (method : String) (wroute : RouteWrapper)
    (st : St σ) : Outcome (Option Err) × RouteWrapper × St σ :=
  let b := c.BindJSON wroute
  if b.1 ≠ none then
    (.ret (some Err.ErrInvalidJSON), b.2, st)
  else
    match b.2.Route with
    | none => (.ret (some Err.ErrRoutesMissingNew), b.2, st)
    | some route =>
      match c.AppName with
      | none => (.panic, b.2, st)
      | some appName =>
        let route1 : Route := { route with AppName := appName }
        let checked : Outcome (Option Err) × Route :=
          if method = http.MethodPut ∨ method = http.MethodPatch then
            match c.Path with
            | none => (.panic, route1)
            | some urlPath =>
              let p := path.Clean urlPath
              if route1.Path ≠ "" ∧ route1.Path ≠ p then
                (.ret (some Err.ErrRoutesPathImmutable), route1)
              else
                (.ret none, { route1 with Path := p })
          else
            (.ret none, route1)
        match checked with
        | (.ret none, route2) =>
          let st1 := st.log (.SetDefaults route2)
          let route3 := s.SetDefaults route2
          let w : RouteWrapper := { Route := some route3 }
          let st2 := st1.log (.Validate w (decide (method = http.MethodPatch)))
          (.ret (s.Validate w (decide (method = http.MethodPatch))), w, st2)
        | (o, route2) => (o, { Route := some route2 }, st)

/-- Go `handleRouteCreateOrUpdate`, with `strings.ToUpper` as the parameter `ToUpper`.
`c.MustGet("ctx").(context.Context)` panics when the key is absent. -/
def handleRouteCreateOrUpdate (s : Server σ) (ToUpper : String → String) (c : Context)
    (st : St σ) : Outcome Unit × St σ :=
  if ¬ c.ctx then (.panic, st)
  else
    let method := ToUpper c.Method
    let wroute : RouteWrapper := { Route := none }
    match bindAndValidate s c method wroute st with
    | (.panic, _, st1) => (.panic, st1)
    | (.ret (some err), _, st1) =>
      (.ret (), st1.log (.JSON http.StatusBadRequest (.simpleError err)))
    | (.ret none, wroute1, st1) =>
      -- Create the app if it does not exist.
      match createApp s wroute1 method st1 with
      | (.panic, st2) => (.panic, st2)
      | (.ret (some err), st2) =>
        (.ret (), st2.log (.JSON http.StatusInternalServerError (.simpleError err)))
      | (.ret none, st2) =>
        match updateOrInsertRoute s method wroute1 st2 with
        | ((_, some err), st3) => (.ret (), st3.log (.handleErrorResponse err))
        | ((resp, none), st3) =>
          (.ret (), (st3.log (.cacheRefresh resp.Route)).log (.JSON http.StatusOK (.resp resp)))

/-- The calls `bindAndValidate` makes: `SetDefaults` and `Validate`. -/
def Call.isBind : Call → Bool
  | .SetDefaults _ => true
  | .Validate _ _ => true
  | _ => false

/-- The calls `createApp` makes: `GetApp`, the validation of the new app, the two hooks and
`InsertApp`. -/
def Call.isApp : Call → Bool
  | .GetApp _ => true
  | .AppValidate _ => true
  | .FireBeforeAppCreate _ => true
  | .InsertApp _ => true
  | .FireAfterAppCreate _ => true
  | _ => false

/-- The calls `updateOrInsertRoute` makes: `InsertRoute` and `UpdateRoute`. -/
def Call.isRoute : Call → Bool
  | .InsertRoute _ => true
  | .UpdateRoute _ => true
  | _ => false

/-- The call is a `cacheRefresh`. -/
def Call.isCacheRefresh : Call → Bool
  | .cacheRefresh _ => true
  | _ => false

/-- The call is a `c.JSON` with the status `code`. -/
def Call.isJSON (code : Nat) : Call → Bool
  | .JSON k _ => decide (k = code)
  | _ => false

/-! ## An in-memory datastore

A concrete `Server` on which the handler can be evaluated: apps and routes are kept in
lists, a route is identified by `AppName` and `Path`. -/

/-- The world state of the in-memory datastore. -/
structure Mem where
  apps : List App
  routes : List Route
  deriving DecidableEq, Repr

/-- Does the route `r` have the key of `q`? -/
def sameKey (q r : Route) : Bool :=
  decide (r.AppName = q.AppName) && decide (r.Path = q.Path)

/-- The in-memory datastore.  `InsertApp` and `InsertRoute` refuse a duplicate,
`UpdateRoute` reports `ErrRoutesNotFound` for an unknown route, a `nil` argument is an
error.  When `down` holds, `InsertApp` fails.  `InsertApp` leaves the app it is handed as
it is. -/
def memDatastore (down : Bool) : Datastore Mem where
  GetApp name m :=
    match m.apps.find? (fun a => decide (a.Name = name)) with
    | some a => ((some a, none), m)
    | none => ((none, some Err.ErrAppsNotFound), m)
  InsertApp app m :=
    if down then (((none, some (Err.other "datastore unavailable")), app), m)
    else if m.apps.any (fun a => decide (a.Name = app.Name)) then
      (((none, some (Err.other "App already exists")), app), m)
    else (((some app, none), app), { m with apps := m.apps ++ [app] })
  InsertRoute route m :=
    match route with
    | none => ((none, some (Err.other "Missing route")), m)
    | some r =>
      if m.routes.any (sameKey r) then ((none, some (Err.other "Route already exists")), m)
      else ((some r, none), { m with routes := m.routes ++ [r] })
  UpdateRoute route m :=
    match route with
    | none => ((none, some (Err.other "Missing route")), m)
    | some r =>
      if m.routes.any (sameKey r) then
        ((some r, none),
          { m with routes := m.routes.map (fun q => if sameKey r q then r else q) })
      else ((none, some Err.ErrRoutesNotFound), m)

/-- A server over the in-memory datastore.  The hooks return `before` and `after` and
leave the store alone; the pre-creation hook renames the app to `rename` when that is
given, everything else leaves the app it is handed as it is.  An app is valid when its
name is not empty and has at most 30 characters, `SetDefaults` changes nothing, and a
wrapper is valid when it has a route whose path is not empty or the validation is
partial. -/
def memServerRenaming (rename : Option String) (down : Bool) (before after : Option Err) :
    Server Mem where
  Datastore := memDatastore down
  FireBeforeAppCreate app m :=
    match rename with
    | some n => ((before, { app with Name := n }), m)
    | none => ((before, app), m)
  FireAfterAppCreate app m := ((after, app), m)
  AppValidate app :=
    if app.Name = "" then (some (Err.other "Missing app name"), app)
    else if app.Name.length > 30 then
      (some (Err.other "App name must be 30 characters or less"), app)
    else (none, app)
  SetDefaults r := r
  Validate w skipZero :=
    match w.Route with
    | none => some Err.ErrRoutesMissingNew
    | some r =>
      if ¬ skipZero ∧ r.Path = "" then some (Err.other "Missing route Path") else none

/-- The server over the in-memory datastore whose hooks do not rename the app. -/
def memServer (down : Bool) (before after : Option Err) : Server Mem :=
  memServerRenaming none down before after

/-- A request context: the body decodes to `body` (`none`: it does not decode), the URL
gives the app name `app` and the route path `urlPath`. -/
def request (method : String) (body : Option RouteWrapper) (app urlPath : Option String) :
    Context where
  Method := method
  BindJSON w :=
    match body with
    | some b => (none, b)
    | none => (some (Err.other "invalid character"), w)
  ctx := true
  AppName := app
  Path := urlPath

/-- Upper-casing of the ASCII letters, the part of Go `strings.ToUpper` that matters for
method names; used to evaluate the handler on concrete requests. -/
def asciiUpper (m : String) : String :=
  String.mk (m.data.map Char.toUpper)

/-- The route `/hello` of the app `myapp`. -/
def helloRoute : Route := { AppName := "myapp", Path := "/hello", Other := [] }

/-- A store holding the app `myapp` and its route `/hello`. -/
def helloStore : Mem := { apps := [{ Name := "myapp" }], routes := [helloRoute] }

/-- The empty store. -/
def emptyStore : Mem := { apps := [], routes := [] }

end server

/-! ## `path.Clean`: the fuel of the main loop is enough -/

namespace path

/-- Any two amounts of fuel that are at least the number of bytes left give the same
result: the main loop of `Clean` never stops for lack of fuel. -/
theorem cleanLoop_fuel (rooted : Bool) :
    ∀ (fuel fuel2 : Nat) (rest out : List Char) (dotdot : Nat),
      rest.length ≤ fuel → rest.length ≤ fuel2 →
      cleanLoop rooted fuel rest out dotdot = cleanLoop rooted fuel2 rest out dotdot := by
  intro fuel
  induction fuel with
  | zero =>
    intro fuel2 rest out dotdot h1 _
    have hr : rest = [] := List.length_eq_zero.mp (Nat.le_zero.mp h1)
    subst hr
    cases fuel2 <;> simp [cleanLoop]
  | succ n ih =>
    intro fuel2 rest out dotdot h1 h2
    cases fuel2 with
    | zero =>
      have hr : rest = [] := List.length_eq_zero.mp (Nat.le_zero.mp h2)
      subst hr
      simp [cleanLoop]
    | succ m =>
      cases rest with
      | nil => simp [cleanLoop]
      | cons c rest1 =>
        have l1 : rest1.length ≤ n := by simpa using h1
        have l2 : rest1.length ≤ m := by simpa using h2
        have t1 : rest1.tail.length ≤ n := by
          have := List.length_tail rest1; omega
        have t2 : rest1.tail.length ≤ m := by
          have := List.length_tail rest1; omega
        have d0 : (rest1.dropWhile (· ≠ '/')).length ≤ rest1.length :=
          (List.dropWhile_sublist _).length_le
        have d1 : (rest1.dropWhile (· ≠ '/')).length ≤ n := le_trans d0 l1
        have d2 : (rest1.dropWhile (· ≠ '/')).length ≤ m := le_trans d0 l2
        simp only [cleanLoop]
        split_ifs <;>
          first
            | exact ih m _ _ _ l1 l2
            | exact ih m _ _ _ t1 t2
            | exact ih m _ _ _ d1 d2

end path

/-! ## `updateOrInsertRoute` -/

namespace server

open models

variable {σ : Type}

/-- For PUT the message of the response is the initial "created" message whatever the
datastore answers: the PUT case never assigns `up`. -/
theorem updateOrInsertRoute_put_message (s : Server σ) (wroute : RouteWrapper) (st : St σ) :
    (updateOrInsertRoute s http.MethodPut wroute st).1.1.Message
      = "Route successfully created" := by
  unfold updateOrInsertRoute
  simp only [http.MethodPut, http.MethodPost]
  split_ifs <;> rfl

/-- C1, evaluated on the code: a PUT for the route `/hello` of `myapp`, which the store
already holds, makes one `UpdateRoute` call and no `InsertRoute` call and returns the
updated route without error, but the message is "Route successfully created", not
"Route successfully updated". -/
theorem updateOrInsertRoute_put_existing_says_created :
    updateOrInsertRoute (memServer false none none) http.MethodPut ⟨some helloRoute⟩
        ⟨helloStore, []⟩
      = ((⟨"Route successfully created", some helloRoute⟩, none),
          ⟨helloStore, [Call.UpdateRoute (some helloRoute)]⟩) := by
  decide

/-- C2: when `UpdateRoute` reports `ErrRoutesNotFound` for a PUT, the calls made are exactly
`UpdateRoute` and then one `InsertRoute`, both with the route of the wrapper; the error and
the route returned are those of that `InsertRoute`, and when it succeeds the response is
"Route successfully created" with the inserted route and no error. -/
theorem updateOrInsertRoute_put_notFound (s : Server σ) (wroute : RouteWrapper) (st : St σ)
    (hU : (s.Datastore.UpdateRoute wroute.Route st.ds).1.2 = some Err.ErrRoutesNotFound) :
    (updateOrInsertRoute s http.MethodPut wroute st).2.calls
        = st.calls ++ [Call.UpdateRoute wroute.Route, Call.InsertRoute wroute.Route] ∧
    (updateOrInsertRoute s http.MethodPut wroute st).2.ds
        = (s.Datastore.InsertRoute wroute.Route
            (s.Datastore.UpdateRoute wroute.Route st.ds).2).2 ∧
    (updateOrInsertRoute s http.MethodPut wroute st).1.2
        = (s.Datastore.InsertRoute wroute.Route
            (s.Datastore.UpdateRoute wroute.Route st.ds).2).1.2 ∧
    (updateOrInsertRoute s http.MethodPut wroute st).1.1.Route
        = (s.Datastore.InsertRoute wroute.Route
            (s.Datastore.UpdateRoute wroute.Route st.ds).2).1.1 ∧
    ((s.Datastore.InsertRoute wroute.Route
        (s.Datastore.UpdateRoute wroute.Route st.ds).2).1.2 = none →
      (updateOrInsertRoute s http.MethodPut wroute st).1
        = (⟨"Route successfully created",
            (s.Datastore.InsertRoute wroute.Route
              (s.Datastore.UpdateRoute wroute.Route st.ds).2).1.1⟩, none)) := by
  have hne : ¬ (http.MethodPut = http.MethodPost) := by decide
  simp [updateOrInsertRoute, hne, St.call, hU]

/-- Witness for C2: a PUT for `/hello` on the empty store inserts the route. -/
theorem updateOrInsertRoute_put_notFound_witness :
    (updateOrInsertRoute (memServer false none none) http.MethodPut ⟨some helloRoute⟩
        ⟨emptyStore, []⟩).2.calls
      = [] ++ [Call.UpdateRoute (some helloRoute), Call.InsertRoute (some helloRoute)] :=
  (updateOrInsertRoute_put_notFound (memServer false none none) ⟨some helloRoute⟩
    ⟨emptyStore, []⟩ (by decide)).1

/-- C3: a PATCH makes exactly one call, `UpdateRoute` with the route of the wrapper, and
no `InsertRoute`; the error returned is the one `UpdateRoute` returned, in particular
`ErrRoutesNotFound` when the route does not exist. -/
theorem updateOrInsertRoute_patch (s : Server σ) (wroute : RouteWrapper) (st : St σ) :
    (updateOrInsertRoute s http.MethodPatch wroute st).2.calls
        = st.calls ++ [Call.UpdateRoute wroute.Route] ∧
    (updateOrInsertRoute s http.MethodPatch wroute st).2.ds
        = (s.Datastore.UpdateRoute wroute.Route st.ds).2 ∧
    (updateOrInsertRoute s http.MethodPatch wroute st).1.2
        = (s.Datastore.UpdateRoute wroute.Route st.ds).1.2 ∧
    (∀ e, (s.Datastore.UpdateRoute wroute.Route st.ds).1.2 = some e →
      (updateOrInsertRoute s http.MethodPatch wroute st).1.2 = some e ∧
      ∀ r, Call.InsertRoute r ∉ (updateOrInsertRoute s http.MethodPatch wroute st).2.calls.drop
        st.calls.length) := by
  have h1 : ¬ (http.MethodPatch = http.MethodPost) := by decide
  have h2 : ¬ (http.MethodPatch = http.MethodPut) := by decide
  simp [updateOrInsertRoute, h1, h2, St.call]

/-- C4: a POST makes exactly one call, `InsertRoute` with the route of the wrapper, and no
`UpdateRoute`; the response carries the message "Route successfully created" and the
route `InsertRoute` returned, and the error is the one `InsertRoute` returned. -/
theorem updateOrInsertRoute_post (s : Server σ) (wroute : RouteWrapper) (st : St σ) :
    updateOrInsertRoute s http.MethodPost wroute st
      = ((⟨"Route successfully created",
            (s.Datastore.InsertRoute wroute.Route st.ds).1.1⟩,
          (s.Datastore.InsertRoute wroute.Route st.ds).1.2),
         ⟨(s.Datastore.InsertRoute wroute.Route st.ds).2,
          st.calls ++ [Call.InsertRoute wroute.Route]⟩) := by
  simp [updateOrInsertRoute, St.call]

end server

/-! ## `createApp` -/

namespace server

open models

variable {σ : Type}

/-- C7: for a method other than POST and PUT, `createApp` returns `nil` at once: the state
and the call log are left as they were, whatever the wrapper holds (even a `nil` route),
so no `GetApp`, no validation, no hook and no `InsertApp` takes place. -/
theorem createApp_other_method (s : Server σ) (wroute : RouteWrapper) (method : String)
    (st : St σ) (h1 : method ≠ http.MethodPost) (h2 : method ≠ http.MethodPut) :
    createApp s wroute method st = (Outcome.ret none, st) := by
  simp [createApp, h1, h2]

/-- Witness for C7: a PATCH for an app the empty store does not hold. -/
theorem createApp_other_method_witness :
    createApp (memServer false none none) ⟨some helloRoute⟩ http.MethodPatch ⟨emptyStore, []⟩
      = (Outcome.ret none, ⟨emptyStore, []⟩) :=
  createApp_other_method (memServer false none none) ⟨some helloRoute⟩ http.MethodPatch
    ⟨emptyStore, []⟩ (by decide) (by decide)

/-- C8: for POST and PUT, when `GetApp` returns an app and no error, `createApp` returns
`nil` and the only call made is that one `GetApp`: no validation, no hook, no `InsertApp`;
the world state is the one `GetApp` left. -/
theorem createApp_app_exists (s : Server σ) (route : Route) (method : String) (st : St σ)
    (app : App) (ds1 : σ)
    (hm : method = http.MethodPost ∨ method = http.MethodPut)
    (hG : s.Datastore.GetApp route.AppName st.ds = ((some app, none), ds1)) :
    createApp s ⟨some route⟩ method st
      = (Outcome.ret none, ⟨ds1, st.calls ++ [Call.GetApp route.AppName]⟩) := by
  simp [createApp, hm, St.call, hG]

/-- Witness for C8: a PUT for the app `myapp`, which the store holds. -/
theorem createApp_app_exists_witness :
    createApp (memServer false none none) ⟨some helloRoute⟩ http.MethodPut ⟨helloStore, []⟩
      = (Outcome.ret none, ⟨helloStore, [] ++ [Call.GetApp helloRoute.AppName]⟩) :=
  createApp_app_exists (memServer false none none) helloRoute http.MethodPut ⟨helloStore, []⟩
    ⟨"myapp"⟩ helloStore (Or.inr rfl) (by decide)

/-- C9, evaluated on the code: for a POST whose app is not found, whose new app validates
and whose pre-creation hook succeeds, a failing `InsertApp` makes `createApp` return
`ErrRoutesCreate`, and so does a failing post-creation hook after a successful `InsertApp`;
neither returns `ErrAppsCreate`, which a failing pre-creation hook yields. -/
theorem createApp_insert_failure_says_routes_create :
    createApp (memServer true none none) ⟨some helloRoute⟩ http.MethodPost ⟨emptyStore, []⟩
      = (Outcome.ret (some Err.ErrRoutesCreate),
          ⟨emptyStore, [Call.GetApp "myapp", Call.AppValidate ⟨"myapp"⟩,
            Call.FireBeforeAppCreate ⟨"myapp"⟩, Call.InsertApp ⟨"myapp"⟩]⟩) ∧
    createApp (memServer false none (some (Err.other "listener failed"))) ⟨some helloRoute⟩
        http.MethodPost ⟨emptyStore, []⟩
      = (Outcome.ret (some Err.ErrRoutesCreate),
          ⟨⟨[⟨"myapp"⟩], []⟩, [Call.GetApp "myapp", Call.AppValidate ⟨"myapp"⟩,
            Call.FireBeforeAppCreate ⟨"myapp"⟩, Call.InsertApp ⟨"myapp"⟩,
            Call.FireAfterAppCreate ⟨"myapp"⟩]⟩) ∧
    (createApp (memServer false (some (Err.other "listener failed")) none) ⟨some helloRoute⟩
        http.MethodPost ⟨emptyStore, []⟩).1
      = Outcome.ret (some Err.ErrAppsCreate) := by
  decide

/-- C10: for POST and PUT, when the app is not found (`GetApp` returns no app, and no error
or `ErrAppsNotFound`), the new app validates and the pre-creation hook fails, `createApp`
returns `ErrAppsCreate`; the calls made are `GetApp`, the validation of the new app named
after the route, and the pre-creation hook on the app as the validation left it, so
`InsertApp` and the post-creation hook are not called, and the world state is the one the
pre-creation hook left. -/
theorem createApp_before_hook_fails (s : Server σ) (route : Route) (method : String)
    (st : St σ)
    (hm : method = http.MethodPost ∨ method = http.MethodPut)
    (hApp : (s.Datastore.GetApp route.AppName st.ds).1.1 = none)
    (hErr : (s.Datastore.GetApp route.AppName st.ds).1.2 = none ∨
      (s.Datastore.GetApp route.AppName st.ds).1.2 = some Err.ErrAppsNotFound)
    (hV : (s.AppValidate ⟨route.AppName⟩).1 = none)
    (hB : (s.FireBeforeAppCreate (s.AppValidate ⟨route.AppName⟩).2
      (s.Datastore.GetApp route.AppName st.ds).2).1.1 ≠ none) :
    createApp s ⟨some route⟩ method st
      = (Outcome.ret (some Err.ErrAppsCreate),
          ⟨(s.FireBeforeAppCreate (s.AppValidate ⟨route.AppName⟩).2
              (s.Datastore.GetApp route.AppName st.ds).2).2,
           st.calls ++ [Call.GetApp route.AppName, Call.AppValidate ⟨route.AppName⟩,
             Call.FireBeforeAppCreate (s.AppValidate ⟨route.AppName⟩).2]⟩) := by
  have hnot : ¬ ((s.Datastore.GetApp route.AppName st.ds).1.2 ≠ none ∧
      (s.Datastore.GetApp route.AppName st.ds).1.2 ≠ some Err.ErrAppsNotFound) := by
    rcases hErr with h | h <;> simp [h]
  simp only [createApp, hm, not_true_eq_false, if_false, St.call, St.log, hnot, hApp,
    if_true, hV]
  simp [hB]

/-- Witness for C10: a POST for the unknown app `myapp` with a failing pre-creation hook;
the store stays empty. -/
theorem createApp_before_hook_fails_witness :
    createApp (memServer false (some (Err.other "listener failed")) none) ⟨some helloRoute⟩
        http.MethodPost ⟨emptyStore, []⟩
      = (Outcome.ret (some Err.ErrAppsCreate),
          ⟨emptyStore, [] ++ [Call.GetApp "myapp", Call.AppValidate ⟨"myapp"⟩,
            Call.FireBeforeAppCreate ⟨"myapp"⟩]⟩) :=
  createApp_before_hook_fails (memServer false (some (Err.other "listener failed")) none)
    helloRoute http.MethodPost ⟨emptyStore, []⟩ (Or.inl rfl) (by decide) (by decide)
    (by decide) (by decide)

end server

/-! ## `bindAndValidate` -/

namespace server

open models

variable {σ : Type}

/-- The body does not decode: `ErrInvalidJSON`, nothing else is done. -/
theorem bindAndValidate_invalid (s : Server σ) (c : Context) (method : String)
    (w0 : RouteWrapper) (st : St σ) (hB : (c.BindJSON w0).1 ≠ none) :
    bindAndValidate s c method w0 st
      = (Outcome.ret (some Err.ErrInvalidJSON), (c.BindJSON w0).2, st) := by
  simp [bindAndValidate, hB]

/-- The body decodes to a wrapper without a route: `ErrRoutesMissingNew`, nothing else is
done. -/
theorem bindAndValidate_missing (s : Server σ) (c : Context) (method : String)
    (w0 : RouteWrapper) (st : St σ) (hB : (c.BindJSON w0).1 = none)
    (hR : (c.BindJSON w0).2.Route = none) :
    bindAndValidate s c method w0 st
      = (Outcome.ret (some Err.ErrRoutesMissingNew), (c.BindJSON w0).2, st) := by
  simp [bindAndValidate, hB, hR]

/-- PUT and PATCH, the path check fails: `ErrRoutesPathImmutable`, the state is untouched. -/
theorem bindAndValidate_immutable (s : Server σ) (c : Context) (method : String)
    (w0 : RouteWrapper) (st : St σ) (r : Route) (app u : String)
    (hB : c.BindJSON w0 = (none, ⟨some r⟩)) (hA : c.AppName = some app)
    (hP : c.Path = some u)
    (hm : method = http.MethodPut ∨ method = http.MethodPatch)
    (h1 : r.Path ≠ "") (h2 : r.Path ≠ path.Clean u) :
    bindAndValidate s c method w0 st
      = (Outcome.ret (some Err.ErrRoutesPathImmutable),
          ⟨some { r with AppName := app }⟩, st) := by
  simp [bindAndValidate, hB, hA, hP, hm, h1, h2]

/-- PUT and PATCH, the path check passes: the route with the URL app name and the cleaned
URL path goes to `SetDefaults`, the result to `Validate`, whose answer is returned. -/
theorem bindAndValidate_update (s : Server σ) (c : Context) (method : String)
    (w0 : RouteWrapper) (st : St σ) (r : Route) (app u : String)
    (hB : c.BindJSON w0 = (none, ⟨some r⟩)) (hA : c.AppName = some app)
    (hP : c.Path = some u)
    (hm : method = http.MethodPut ∨ method = http.MethodPatch)
    (h : r.Path = "" ∨ r.Path = path.Clean u) :
    bindAndValidate s c method w0 st
      = (Outcome.ret (s.Validate
            ⟨some (s.SetDefaults { r with AppName := app, Path := path.Clean u })⟩
            (decide (method = http.MethodPatch))),
          ⟨some (s.SetDefaults { r with AppName := app, Path := path.Clean u })⟩,
          ⟨st.ds, st.calls ++
            [Call.SetDefaults { r with AppName := app, Path := path.Clean u },
             Call.Validate
              ⟨some (s.SetDefaults { r with AppName := app, Path := path.Clean u })⟩
              (decide (method = http.MethodPatch))]⟩) := by
  have hc : ¬ (r.Path ≠ "" ∧ r.Path ≠ path.Clean u) := by
    rcases h with h | h <;> simp [h]
  simp only [bindAndValidate, hB, hA, hP, hm, ne_eq, not_true_eq_false, if_false, if_true,
    St.log]
  rw [if_neg hc]
  simp

/-- Every other method, POST among them: the route with the URL app name and the path of
the body goes to `SetDefaults`, the result to `Validate`; `c.Path` is not read. -/
theorem bindAndValidate_create (s : Server σ) (c : Context) (method : String)
    (w0 : RouteWrapper) (st : St σ) (r : Route) (app : String)
    (hB : c.BindJSON w0 = (none, ⟨some r⟩)) (hA : c.AppName = some app)
    (h1 : method ≠ http.MethodPut) (h2 : method ≠ http.MethodPatch) :
    bindAndValidate s c method w0 st
      = (Outcome.ret (s.Validate ⟨some (s.SetDefaults { r with AppName := app })⟩
            (decide (method = http.MethodPatch))),
          ⟨some (s.SetDefaults { r with AppName := app })⟩,
          ⟨st.ds, st.calls ++
            [Call.SetDefaults { r with AppName := app },
             Call.Validate ⟨some (s.SetDefaults { r with AppName := app })⟩
              (decide (method = http.MethodPatch))]⟩) := by
  simp [bindAndValidate, hB, hA, h1, h2, St.log]

end server

namespace server

open models

variable {σ : Type}

/-- The validation of the in-memory server never answers `ErrRoutesPathImmutable`. -/
theorem memServer_validate_ne (down : Bool) (before after : Option Err) (w : RouteWrapper)
    (p : Bool) : (memServer down before after).Validate w p ≠ some Err.ErrRoutesPathImmutable := by
  simp only [memServer, memServerRenaming]
  split
  · simp
  · split_ifs <;> simp

/-- C5: for a request whose body decodes to a wrapper with the route `r`, whatever the
method and whatever keys the context holds:
* as long as `Validate` itself never answers `ErrRoutesPathImmutable`, `bindAndValidate`
  returns `ErrRoutesPathImmutable` if and only if the method is PUT or PATCH, the URL path
  `u` is there, `r.Path` is not empty and `r.Path` differs from `path.Clean u` (and the
  URL app name is there, without which the call panics before the check); so a POST, with
  or without a URL path, never gets that error;
* in that case the state and the call log are untouched (no datastore operation, no
  `SetDefaults`, no `Validate`), whatever the store holds;
* and the handler then only sends the 400 response: its complete log is the old log plus
  that one `c.JSON` call, and the world state is unchanged. -/
theorem bindAndValidate_pathImmutable_iff (s : Server σ) (c : Context) (method : String)
    (w0 : RouteWrapper) (st : St σ) (r : Route)
    (hB : c.BindJSON w0 = (none, ⟨some r⟩)) :
    ((∀ w p, s.Validate w p ≠ some Err.ErrRoutesPathImmutable) →
      ((bindAndValidate s c method w0 st).1 = Outcome.ret (some Err.ErrRoutesPathImmutable) ↔
        (∃ app, c.AppName = some app) ∧
        (method = http.MethodPut ∨ method = http.MethodPatch) ∧
        ∃ u, c.Path = some u ∧ r.Path ≠ "" ∧ r.Path ≠ path.Clean u)) ∧
    (∀ app u, c.AppName = some app → c.Path = some u →
      (method = http.MethodPut ∨ method = http.MethodPatch) ∧ r.Path ≠ "" ∧
        r.Path ≠ path.Clean u →
      bindAndValidate s c method w0 st
        = (Outcome.ret (some Err.ErrRoutesPathImmutable),
            ⟨some { r with AppName := app }⟩, st)) ∧
    (∀ app u, c.AppName = some app → c.Path = some u →
      (method = http.MethodPut ∨ method = http.MethodPatch) ∧ r.Path ≠ "" ∧
        r.Path ≠ path.Clean u →
      w0 = ⟨none⟩ → c.ctx = true → ∀ ToUpper : String → String, ToUpper c.Method = method →
      handleRouteCreateOrUpdate s ToUpper c st
        = (Outcome.ret (),
            ⟨st.ds, st.calls ++
              [Call.JSON http.StatusBadRequest
                (Payload.simpleError Err.ErrRoutesPathImmutable)]⟩)) := by
  refine ⟨?_, ?_, ?_⟩
  · intro hV
    constructor
    · intro hres
      cases hA : c.AppName with
      | none => simp [bindAndValidate, hB, hA] at hres
      | some app =>
        by_cases hm : method = http.MethodPut ∨ method = http.MethodPatch
        · cases hP : c.Path with
          | none => simp [bindAndValidate, hB, hA, hP, hm] at hres
          | some u =>
            by_cases hc : r.Path = "" ∨ r.Path = path.Clean u
            · rw [bindAndValidate_update s c method w0 st r app u hB hA hP hm hc] at hres
              simp only [Outcome.ret.injEq] at hres
              exact absurd hres (hV _ _)
            · push_neg at hc
              exact ⟨⟨app, rfl⟩, hm, u, rfl, hc.1, hc.2⟩
        · push_neg at hm
          rw [bindAndValidate_create s c method w0 st r app hB hA hm.1 hm.2] at hres
          simp only [Outcome.ret.injEq] at hres
          exact absurd hres (hV _ _)
    · rintro ⟨⟨app, hA⟩, hm, u, hP, h1, h2⟩
      rw [bindAndValidate_immutable s c method w0 st r app u hB hA hP hm h1 h2]
  · rintro app u hA hP ⟨hm, h1, h2⟩
    exact bindAndValidate_immutable s c method w0 st r app u hB hA hP hm h1 h2
  · rintro app u hA hP ⟨hm, h1, h2⟩ hw hctx ToUpper hT
    subst hw
    simp [handleRouteCreateOrUpdate, hctx, hT,
      bindAndValidate_immutable s c method ⟨none⟩ st r app u hB hA hP hm h1 h2, St.log]

/-- Witness for C5: `PATCH /apps/myapp/routes/hello` with the body path `/other` gets
`ErrRoutesPathImmutable`; a POST with the same body and no URL path does not. -/
theorem bindAndValidate_pathImmutable_iff_witness :
    bindAndValidate (memServer false none none)
        (request "PATCH" (some ⟨some { helloRoute with Path := "/other" }⟩) (some "myapp")
          (some "/hello"))
        http.MethodPatch ⟨none⟩ ⟨helloStore, []⟩
      = (Outcome.ret (some Err.ErrRoutesPathImmutable),
          ⟨some { { helloRoute with Path := "/other" } with AppName := "myapp" }⟩,
          ⟨helloStore, []⟩) ∧
    (bindAndValidate (memServer false none none)
        (request "POST" (some ⟨some { helloRoute with Path := "/other" }⟩) (some "myapp")
          none)
        http.MethodPost ⟨none⟩ ⟨helloStore, []⟩).1
      ≠ Outcome.ret (some Err.ErrRoutesPathImmutable) :=
  ⟨(bindAndValidate_pathImmutable_iff (memServer false none none)
      (request "PATCH" (some ⟨some { helloRoute with Path := "/other" }⟩) (some "myapp")
        (some "/hello"))
      http.MethodPatch ⟨none⟩ ⟨helloStore, []⟩ { helloRoute with Path := "/other" }
      rfl).2.1 "myapp" "/hello" rfl rfl (by decide),
   fun h => absurd
    (((bindAndValidate_pathImmutable_iff (memServer false none none)
      (request "POST" (some ⟨some { helloRoute with Path := "/other" }⟩) (some "myapp")
        none)
      http.MethodPost ⟨none⟩ ⟨helloStore, []⟩ { helloRoute with Path := "/other" }
      rfl).1 (memServer_validate_ne false none none)).mp h).2.1 (by decide)⟩

/-- C6: for a request that passes decoding, the route-present check and the path check,
with the route `r` in the body and the URL app name `app`:
* for PUT and PATCH with URL path `u` (the body path being empty or equal to
  `path.Clean u`), the route handed to `SetDefaults` has the path `path.Clean u`, and the
  wrapper handed to `Validate` holds the result of `SetDefaults` on it;
* for POST the route handed to `SetDefaults` has the path of the body, and this does not
  depend on `c.Path`, which may even be absent;
* so when `SetDefaults` leaves the path alone, the route handed to `Validate` has the path
  `path.Clean u` for PUT and PATCH and the path of the body for POST. -/
theorem bindAndValidate_path (s : Server σ) (c : Context) (method : String)
    (w0 : RouteWrapper) (st : St σ) (r : Route) (app : String)
    (hB : c.BindJSON w0 = (none, ⟨some r⟩)) (hA : c.AppName = some app) :
    (∀ u, c.Path = some u → method = http.MethodPut ∨ method = http.MethodPatch →
      r.Path = "" ∨ r.Path = path.Clean u →
      (bindAndValidate s c method w0 st).2.2.calls = st.calls ++
          [Call.SetDefaults { r with AppName := app, Path := path.Clean u },
           Call.Validate
            ⟨some (s.SetDefaults { r with AppName := app, Path := path.Clean u })⟩
            (decide (method = http.MethodPatch))] ∧
        ((∀ x, (s.SetDefaults x).Path = x.Path) →
          (s.SetDefaults { r with AppName := app, Path := path.Clean u }).Path
            = path.Clean u)) ∧
    (method = http.MethodPost →
      (bindAndValidate s c method w0 st).2.2.calls = st.calls ++
          [Call.SetDefaults { r with AppName := app, Path := r.Path },
           Call.Validate ⟨some (s.SetDefaults { r with AppName := app, Path := r.Path })⟩
            false] ∧
        ((∀ x, (s.SetDefaults x).Path = x.Path) →
          (s.SetDefaults { r with AppName := app, Path := r.Path }).Path = r.Path)) := by
  constructor
  · intro u hP hm hc
    rw [bindAndValidate_update s c method w0 st r app u hB hA hP hm hc]
    exact ⟨rfl, fun h => h _⟩
  · intro hm
    have h1 : method ≠ http.MethodPut := by rw [hm]; decide
    have h2 : method ≠ http.MethodPatch := by rw [hm]; decide
    rw [bindAndValidate_create s c method w0 st r app hB hA h1 h2]
    have hd : decide (method = http.MethodPatch) = false := by simp [h2]
    rw [hd]
    exact ⟨rfl, fun h => h _⟩

/-- Witness for C6: `PUT /apps/myapp/routes/hello/` with an empty body path binds the
path `/hello`; a POST without any URL path binds the body path `/hello`. -/
theorem bindAndValidate_path_witness :
    (bindAndValidate (memServer false none none)
        (request "PUT" (some ⟨some { helloRoute with Path := "" }⟩) (some "myapp")
          (some "/hello/"))
        http.MethodPut ⟨none⟩ ⟨emptyStore, []⟩).2.2.calls
      = [] ++ [Call.SetDefaults helloRoute, Call.Validate ⟨some helloRoute⟩ false] ∧
    (bindAndValidate (memServer false none none)
        (request "POST" (some ⟨some helloRoute⟩) (some "myapp") none)
        http.MethodPost ⟨none⟩ ⟨emptyStore, []⟩).2.2.calls
      = [] ++ [Call.SetDefaults helloRoute, Call.Validate ⟨some helloRoute⟩ false] :=
  ⟨((bindAndValidate_path (memServer false none none)
      (request "PUT" (some ⟨some { helloRoute with Path := "" }⟩) (some "myapp")
        (some "/hello/"))
      http.MethodPut ⟨none⟩ ⟨emptyStore, []⟩ { helloRoute with Path := "" } "myapp"
      rfl rfl).1 "/hello/" rfl (Or.inl rfl) (Or.inl rfl)).1,
   ((bindAndValidate_path (memServer false none none)
      (request "POST" (some ⟨some helloRoute⟩) (some "myapp") none)
      http.MethodPost ⟨none⟩ ⟨emptyStore, []⟩ helloRoute "myapp" rfl rfl).2 rfl).1⟩

end server

/-! ## The call log of each step -/

namespace server

open models

variable {σ : Type}

/-- `bindAndValidate` leaves the world state alone and logs only `SetDefaults` and
`Validate` calls. -/
theorem bindAndValidate_frame (s : Server σ) (c : Context) (method : String)
    (w0 : RouteWrapper) (st : St σ) :
    (bindAndValidate s c method w0 st).2.2.ds = st.ds ∧
    ∃ l, (bindAndValidate s c method w0 st).2.2.calls = st.calls ++ l ∧
      ∀ x ∈ l, x.isBind = true := by
  by_cases hB : (c.BindJSON w0).1 ≠ none
  · rw [bindAndValidate_invalid s c method w0 st hB]
    exact ⟨rfl, [], by simp, by simp⟩
  · simp only [ne_eq, not_not] at hB
    cases hR : (c.BindJSON w0).2.Route with
    | none =>
      rw [bindAndValidate_missing s c method w0 st hB hR]
      exact ⟨rfl, [], by simp, by simp⟩
    | some r =>
      have hB2 : c.BindJSON w0 = (none, ⟨some r⟩) := by
        rcases hw : c.BindJSON w0 with ⟨e, ⟨ro⟩⟩
        rw [hw] at hB hR
        simp only at hB hR
        rw [hB, hR]
      cases hA : c.AppName with
      | none =>
        simp only [bindAndValidate, hB2, hA]
        exact ⟨rfl, [], by simp, by simp⟩
      | some app =>
        by_cases hm : method = http.MethodPut ∨ method = http.MethodPatch
        · cases hP : c.Path with
          | none =>
            simp only [bindAndValidate, hB2, hA, hP, hm]
            exact ⟨rfl, [], by simp, by simp⟩
          | some u =>
            by_cases hc : r.Path = "" ∨ r.Path = path.Clean u
            · rw [bindAndValidate_update s c method w0 st r app u hB2 hA hP hm hc]
              exact ⟨rfl, _, rfl, by simp [Call.isBind]⟩
            · push_neg at hc
              rw [bindAndValidate_immutable s c method w0 st r app u hB2 hA hP hm hc.1 hc.2]
              exact ⟨rfl, [], by simp, by simp⟩
        · push_neg at hm
          rw [bindAndValidate_create s c method w0 st r app hB2 hA hm.1 hm.2]
          exact ⟨rfl, _, rfl, by simp [Call.isBind]⟩

/-- `createApp` logs only `GetApp`, app validation, hook and `InsertApp` calls. -/
theorem createApp_frame (s : Server σ) (wroute : RouteWrapper) (method : String)
    (st : St σ) :
    ∃ l, (createApp s wroute method st).2.calls = st.calls ++ l ∧
      ∀ x ∈ l, x.isApp = true := by
  unfold createApp
  simp only [St.log, St.call]
  repeat' split
  all_goals try simp only [List.append_assoc, List.cons_append, List.nil_append,
    List.singleton_append]
  all_goals first
    | exact ⟨_, rfl, by simp [Call.isApp]⟩
    | exact ⟨[], (List.append_nil _).symm, by simp⟩

/-- `updateOrInsertRoute` logs only `InsertRoute` and `UpdateRoute` calls. -/
theorem updateOrInsertRoute_frame (s : Server σ) (method : String) (wroute : RouteWrapper)
    (st : St σ) :
    ∃ l, (updateOrInsertRoute s method wroute st).2.calls = st.calls ++ l ∧
      ∀ x ∈ l, x.isRoute = true := by
  unfold updateOrInsertRoute
  simp only [St.call]
  repeat' split
  all_goals try simp only [List.append_assoc, List.cons_append, List.nil_append,
    List.singleton_append]
  all_goals first
    | exact ⟨_, rfl, by simp [Call.isRoute]⟩
    | exact ⟨[], (List.append_nil _).symm, by simp⟩

/-! ## The handler, step by step -/

/-- The bind step fails: the handler sends 400 with the error and stops. -/
theorem handle_bind_fails (s : Server σ) (ToUpper : String → String) (c : Context)
    (st st1 : St σ) (e : Err) (w1 : RouteWrapper) (hctx : c.ctx = true)
    (hb : bindAndValidate s c (ToUpper c.Method) ⟨none⟩ st = (Outcome.ret (some e), w1, st1)) :
    handleRouteCreateOrUpdate s ToUpper c st
      = (Outcome.ret (),
          st1.log (Call.JSON http.StatusBadRequest (Payload.simpleError e))) := by
  simp [handleRouteCreateOrUpdate, hctx, hb]

/-- The bind step succeeds and `createApp` fails: the handler sends 500 with the error and
stops. -/
theorem handle_app_fails (s : Server σ) (ToUpper : String → String) (c : Context)
    (st st1 st2 : St σ) (e : Err) (w1 : RouteWrapper) (hctx : c.ctx = true)
    (hb : bindAndValidate s c (ToUpper c.Method) ⟨none⟩ st = (Outcome.ret none, w1, st1))
    (ha : createApp s w1 (ToUpper c.Method) st1 = (Outcome.ret (some e), st2)) :
    handleRouteCreateOrUpdate s ToUpper c st
      = (Outcome.ret (),
          st2.log (Call.JSON http.StatusInternalServerError (Payload.simpleError e))) := by
  simp [handleRouteCreateOrUpdate, hctx, hb, ha]

/-- The first two steps succeed and `updateOrInsertRoute` fails: the handler hands the
error to `handleErrorResponse` and stops. -/
theorem handle_route_fails (s : Server σ) (ToUpper : String → String) (c : Context)
    (st st1 st2 st3 : St σ) (e : Err) (w1 : RouteWrapper) (resp : routeResponse)
    (hctx : c.ctx = true)
    (hb : bindAndValidate s c (ToUpper c.Method) ⟨none⟩ st = (Outcome.ret none, w1, st1))
    (ha : createApp s w1 (ToUpper c.Method) st1 = (Outcome.ret none, st2))
    (hu : updateOrInsertRoute s (ToUpper c.Method) w1 st2 = ((resp, some e), st3)) :
    handleRouteCreateOrUpdate s ToUpper c st
      = (Outcome.ret (), st3.log (Call.handleErrorResponse e)) := by
  simp [handleRouteCreateOrUpdate, hctx, hb, ha, hu]

/-- All three steps succeed: the handler refreshes the cache with the route of the
response and then sends 200 with the response. -/
theorem handle_ok (s : Server σ) (ToUpper : String → String) (c : Context)
    (st st1 st2 st3 : St σ) (w1 : RouteWrapper) (resp : routeResponse)
    (hctx : c.ctx = true)
    (hb : bindAndValidate s c (ToUpper c.Method) ⟨none⟩ st = (Outcome.ret none, w1, st1))
    (ha : createApp s w1 (ToUpper c.Method) st1 = (Outcome.ret none, st2))
    (hu : updateOrInsertRoute s (ToUpper c.Method) w1 st2 = ((resp, none), st3)) :
    handleRouteCreateOrUpdate s ToUpper c st
      = (Outcome.ret (),
          (st3.log (Call.cacheRefresh resp.Route)).log
            (Call.JSON http.StatusOK (Payload.resp resp))) := by
  simp [handleRouteCreateOrUpdate, hctx, hb, ha, hu]

end server

namespace server

open models

variable {σ : Type}

/-- C11: the handler runs bind, then `createApp`, then `updateOrInsertRoute`, and a failing
step stops the rest.  With `lb` the calls of the bind step (`SetDefaults`, `Validate`),
`la` those of `createApp` and `lr` those of `updateOrInsertRoute`, the calls the handler
adds to the log are
* `lb` and the 400 response when the bind step fails, the world state being unchanged;
* `lb`, `la` and the 500 response when `createApp` fails;
* `lb`, `la`, `lr` and `handleErrorResponse` when `updateOrInsertRoute` fails;
* `lb`, `la`, `lr`, `cacheRefresh` and the 200 response otherwise. -/
theorem handleRouteCreateOrUpdate_order (s : Server σ) (ToUpper : String → String)
    (c : Context) (st : St σ) (hctx : c.ctx = true) :
    (∀ e w1 st1,
      bindAndValidate s c (ToUpper c.Method) ⟨none⟩ st = (Outcome.ret (some e), w1, st1) →
      ∃ lb, (∀ x ∈ lb, x.isBind = true) ∧
        handleRouteCreateOrUpdate s ToUpper c st
          = (Outcome.ret (), ⟨st.ds, st.calls ++ lb ++
              [Call.JSON http.StatusBadRequest (Payload.simpleError e)]⟩)) ∧
    (∀ e w1 st1 st2,
      bindAndValidate s c (ToUpper c.Method) ⟨none⟩ st = (Outcome.ret none, w1, st1) →
      createApp s w1 (ToUpper c.Method) st1 = (Outcome.ret (some e), st2) →
      ∃ lb la, (∀ x ∈ lb, x.isBind = true) ∧ (∀ x ∈ la, x.isApp = true) ∧
        handleRouteCreateOrUpdate s ToUpper c st
          = (Outcome.ret (), ⟨st2.ds, st.calls ++ lb ++ la ++
              [Call.JSON http.StatusInternalServerError (Payload.simpleError e)]⟩)) ∧
    (∀ e w1 st1 st2 resp st3,
      bindAndValidate s c (ToUpper c.Method) ⟨none⟩ st = (Outcome.ret none, w1, st1) →
      createApp s w1 (ToUpper c.Method) st1 = (Outcome.ret none, st2) →
      updateOrInsertRoute s (ToUpper c.Method) w1 st2 = ((resp, some e), st3) →
      ∃ lb la lr, (∀ x ∈ lb, x.isBind = true) ∧ (∀ x ∈ la, x.isApp = true) ∧
        (∀ x ∈ lr, x.isRoute = true) ∧
        handleRouteCreateOrUpdate s ToUpper c st
          = (Outcome.ret (), ⟨st3.ds, st.calls ++ lb ++ la ++ lr ++
              [Call.handleErrorResponse e]⟩)) ∧
    (∀ w1 st1 st2 resp st3,
      bindAndValidate s c (ToUpper c.Method) ⟨none⟩ st = (Outcome.ret none, w1, st1) →
      createApp s w1 (ToUpper c.Method) st1 = (Outcome.ret none, st2) →
      updateOrInsertRoute s (ToUpper c.Method) w1 st2 = ((resp, none), st3) →
      ∃ lb la lr, (∀ x ∈ lb, x.isBind = true) ∧ (∀ x ∈ la, x.isApp = true) ∧
        (∀ x ∈ lr, x.isRoute = true) ∧
        handleRouteCreateOrUpdate s ToUpper c st
          = (Outcome.ret (), ⟨st3.ds, st.calls ++ lb ++ la ++ lr ++
              [Call.cacheRefresh resp.Route,
               Call.JSON http.StatusOK (Payload.resp resp)]⟩)) := by
  refine ⟨?_, ?_, ?_, ?_⟩
  · intro e w1 st1 hb
    obtain ⟨hds, lb, hl, hlb⟩ := bindAndValidate_frame s c (ToUpper c.Method) ⟨none⟩ st
    rw [hb] at hds hl
    simp only at hds hl
    refine ⟨lb, hlb, ?_⟩
    rw [handle_bind_fails s ToUpper c st st1 e w1 hctx hb]
    simp [St.log, hds, hl]
  · intro e w1 st1 st2 hb ha
    obtain ⟨_, lb, hl, hlb⟩ := bindAndValidate_frame s c (ToUpper c.Method) ⟨none⟩ st
    obtain ⟨la, hl2, hla⟩ := createApp_frame s w1 (ToUpper c.Method) st1
    rw [hb] at hl
    rw [ha] at hl2
    simp only at hl hl2
    refine ⟨lb, la, hlb, hla, ?_⟩
    rw [handle_app_fails s ToUpper c st st1 st2 e w1 hctx hb ha]
    simp [St.log, hl, hl2]
  · intro e w1 st1 st2 resp st3 hb ha hu
    obtain ⟨_, lb, hl, hlb⟩ := bindAndValidate_frame s c (ToUpper c.Method) ⟨none⟩ st
    obtain ⟨la, hl2, hla⟩ := createApp_frame s w1 (ToUpper c.Method) st1
    obtain ⟨lr, hl3, hlr⟩ := updateOrInsertRoute_frame s (ToUpper c.Method) w1 st2
    rw [hb] at hl
    rw [ha] at hl2
    rw [hu] at hl3
    simp only at hl hl2 hl3
    refine ⟨lb, la, lr, hlb, hla, hlr, ?_⟩
    rw [handle_route_fails s ToUpper c st st1 st2 st3 e w1 resp hctx hb ha hu]
    simp [St.log, hl, hl2, hl3]
  · intro w1 st1 st2 resp st3 hb ha hu
    obtain ⟨_, lb, hl, hlb⟩ := bindAndValidate_frame s c (ToUpper c.Method) ⟨none⟩ st
    obtain ⟨la, hl2, hla⟩ := createApp_frame s w1 (ToUpper c.Method) st1
    obtain ⟨lr, hl3, hlr⟩ := updateOrInsertRoute_frame s (ToUpper c.Method) w1 st2
    rw [hb] at hl
    rw [ha] at hl2
    rw [hu] at hl3
    simp only at hl hl2 hl3
    refine ⟨lb, la, lr, hlb, hla, hlr, ?_⟩
    rw [handle_ok s ToUpper c st st1 st2 st3 w1 resp hctx hb ha hu]
    simp [St.log, hl, hl2, hl3]

/-- Witness for C11: `PATCH /apps/myapp/routes/hello` on the empty store passes the bind
step and `createApp` and fails in `UpdateRoute`; the log ends with `handleErrorResponse`. -/
theorem handleRouteCreateOrUpdate_order_witness :
    ∃ lb la lr, (∀ x ∈ lb, x.isBind = true) ∧ (∀ x ∈ la, x.isApp = true) ∧
      (∀ x ∈ lr, x.isRoute = true) ∧
      handleRouteCreateOrUpdate (memServer false none none) asciiUpper
          (request "patch" (some ⟨some helloRoute⟩) (some "myapp") (some "/hello"))
          ⟨emptyStore, []⟩
        = (Outcome.ret (), ⟨emptyStore, [] ++ lb ++ la ++ lr ++
            [Call.handleErrorResponse Err.ErrRoutesNotFound]⟩) :=
  (handleRouteCreateOrUpdate_order (memServer false none none) asciiUpper
    (request "patch" (some ⟨some helloRoute⟩) (some "myapp") (some "/hello"))
    ⟨emptyStore, []⟩ rfl).2.2.1 Err.ErrRoutesNotFound ⟨some helloRoute⟩
    ⟨emptyStore, [Call.SetDefaults helloRoute, Call.Validate ⟨some helloRoute⟩ true]⟩
    ⟨emptyStore, [Call.SetDefaults helloRoute, Call.Validate ⟨some helloRoute⟩ true]⟩
    ⟨"Route successfully updated", none⟩
    ⟨emptyStore, [Call.SetDefaults helloRoute, Call.Validate ⟨some helloRoute⟩ true,
      Call.UpdateRoute (some helloRoute)]⟩
    (by decide) (by decide) (by decide)

end server

namespace server

open models

variable {σ : Type}

/-- C12, refuted on the code: a POST that binds, for an app that does not exist and whose
name (31 characters, taken from the URL) fails the app validation, is answered with the
status 500 carrying the validation error; no call of `c.JSON` has the status 400. -/
theorem handleRouteCreateOrUpdate_app_invalid_is_500 :
    handleRouteCreateOrUpdate (memServer false none none) asciiUpper
        (request "POST" (some ⟨some helloRoute⟩) (some "an-app-name-of-31-characters-xx") none)
        ⟨emptyStore, []⟩
      = (Outcome.ret (), ⟨emptyStore,
          [Call.SetDefaults { helloRoute with AppName := "an-app-name-of-31-characters-xx" },
           Call.Validate ⟨some { helloRoute with AppName := "an-app-name-of-31-characters-xx" }⟩
            false,
           Call.GetApp "an-app-name-of-31-characters-xx",
           Call.AppValidate ⟨"an-app-name-of-31-characters-xx"⟩,
           Call.JSON 500
            (Payload.simpleError (Err.other "App name must be 30 characters or less"))]⟩) ∧
    (handleRouteCreateOrUpdate (memServer false none none) asciiUpper
        (request "POST" (some ⟨some helloRoute⟩) (some "an-app-name-of-31-characters-xx") none)
        ⟨emptyStore, []⟩).2.calls.any (Call.isJSON http.StatusBadRequest) = false := by
  decide

/-- C12 as amended.  Failures of the bind step get 400: whenever `bindAndValidate` returns
an error, and in particular when the route validation (`Validate`, reached by a body with
the route `r` and the URL app name `app`) answers `e`, the handler sends the status 400
carrying that error and stops.  The validation of a new app does not: for POST and PUT,
when the bind step succeeds, the app is not found and the validation of the new app fails
with `e`, the handler sends the status 500 carrying `e`, and the calls after the bind step
are `GetApp`, that validation and that response. -/
theorem handleRouteCreateOrUpdate_app_invalid (s : Server σ) (ToUpper : String → String)
    (c : Context) (st : St σ) (hctx : c.ctx = true) :
    (∀ e w1 st1,
      bindAndValidate s c (ToUpper c.Method) ⟨none⟩ st = (Outcome.ret (some e), w1, st1) →
      handleRouteCreateOrUpdate s ToUpper c st
        = (Outcome.ret (), ⟨st1.ds, st1.calls ++
            [Call.JSON http.StatusBadRequest (Payload.simpleError e)]⟩)) ∧
    (∀ r app u e, c.BindJSON ⟨none⟩ = (none, ⟨some r⟩) → c.AppName = some app →
      c.Path = some u →
      ToUpper c.Method = http.MethodPut ∨ ToUpper c.Method = http.MethodPatch →
      r.Path = "" ∨ r.Path = path.Clean u →
      s.Validate ⟨some (s.SetDefaults { r with AppName := app, Path := path.Clean u })⟩
        (decide (ToUpper c.Method = http.MethodPatch)) = some e →
      handleRouteCreateOrUpdate s ToUpper c st
        = (Outcome.ret (), ⟨st.ds, st.calls ++
            [Call.SetDefaults { r with AppName := app, Path := path.Clean u },
             Call.Validate
              ⟨some (s.SetDefaults { r with AppName := app, Path := path.Clean u })⟩
              (decide (ToUpper c.Method = http.MethodPatch)),
             Call.JSON http.StatusBadRequest (Payload.simpleError e)]⟩)) ∧
    (∀ r app e, c.BindJSON ⟨none⟩ = (none, ⟨some r⟩) → c.AppName = some app →
      ToUpper c.Method = http.MethodPost →
      s.Validate ⟨some (s.SetDefaults { r with AppName := app })⟩ false = some e →
      handleRouteCreateOrUpdate s ToUpper c st
        = (Outcome.ret (), ⟨st.ds, st.calls ++
            [Call.SetDefaults { r with AppName := app },
             Call.Validate ⟨some (s.SetDefaults { r with AppName := app })⟩ false,
             Call.JSON http.StatusBadRequest (Payload.simpleError e)]⟩)) ∧
    (∀ route st1 e,
      ToUpper c.Method = http.MethodPost ∨ ToUpper c.Method = http.MethodPut →
      bindAndValidate s c (ToUpper c.Method) ⟨none⟩ st
        = (Outcome.ret none, ⟨some route⟩, st1) →
      (s.Datastore.GetApp route.AppName st1.ds).1.1 = none →
      (s.Datastore.GetApp route.AppName st1.ds).1.2 = none ∨
        (s.Datastore.GetApp route.AppName st1.ds).1.2 = some Err.ErrAppsNotFound →
      (s.AppValidate ⟨route.AppName⟩).1 = some e →
      handleRouteCreateOrUpdate s ToUpper c st
        = (Outcome.ret (),
            ⟨(s.Datastore.GetApp route.AppName st1.ds).2,
             st1.calls ++ [Call.GetApp route.AppName, Call.AppValidate ⟨route.AppName⟩,
               Call.JSON http.StatusInternalServerError (Payload.simpleError e)]⟩)) := by
  refine ⟨?_, ?_, ?_, ?_⟩
  · intro e w1 st1 hb
    rw [handle_bind_fails s ToUpper c st st1 e w1 hctx hb]
    rfl
  · intro r app u e hB hA hP hm hc hV
    have hb := bindAndValidate_update s c (ToUpper c.Method) ⟨none⟩ st r app u hB hA hP hm hc
    rw [hV] at hb
    rw [handle_bind_fails s ToUpper c st _ e _ hctx hb]
    simp [St.log]
  · intro r app e hB hA hm hV
    have h1 : ToUpper c.Method ≠ http.MethodPut := by rw [hm]; decide
    have h2 : ToUpper c.Method ≠ http.MethodPatch := by rw [hm]; decide
    have hb := bindAndValidate_create s c (ToUpper c.Method) ⟨none⟩ st r app hB hA h1 h2
    have hd : decide (ToUpper c.Method = http.MethodPatch) = false := by simp [h2]
    rw [hd, hV] at hb
    rw [handle_bind_fails s ToUpper c st _ e _ hctx hb]
    simp [St.log]
  · intro route st1 e hm hb hApp hErr hV
    have hnot : ¬ ((s.Datastore.GetApp route.AppName st1.ds).1.2 ≠ none ∧
        (s.Datastore.GetApp route.AppName st1.ds).1.2 ≠ some Err.ErrAppsNotFound) := by
      rcases hErr with h | h <;> simp [h]
    have ha : createApp s ⟨some route⟩ (ToUpper c.Method) st1
        = (Outcome.ret (some e), ⟨(s.Datastore.GetApp route.AppName st1.ds).2,
            st1.calls ++ [Call.GetApp route.AppName, Call.AppValidate ⟨route.AppName⟩]⟩) := by
      simp only [createApp, hm, not_true_eq_false, if_false, St.call, St.log, hnot, hApp,
        if_true, hV]
      simp
    rw [handle_app_fails s ToUpper c st st1 _ e ⟨some route⟩ hctx hb ha]
    simp [St.log]

/-- Witness for the amended C12: a POST with an empty route path fails the route
validation and gets 400; the request of the counterexample fails the app validation and
gets 500. -/
theorem handleRouteCreateOrUpdate_app_invalid_witness :
    handleRouteCreateOrUpdate (memServer false none none) asciiUpper
        (request "POST" (some ⟨some { helloRoute with Path := "" }⟩) (some "myapp") none)
        ⟨emptyStore, []⟩
      = (Outcome.ret (), ⟨emptyStore, [] ++
          [Call.SetDefaults { helloRoute with Path := "" },
           Call.Validate ⟨some { helloRoute with Path := "" }⟩ false,
           Call.JSON http.StatusBadRequest
            (Payload.simpleError (Err.other "Missing route Path"))]⟩) ∧
    handleRouteCreateOrUpdate (memServer false none none) asciiUpper
        (request "POST" (some ⟨some helloRoute⟩) (some "an-app-name-of-31-characters-xx") none)
        ⟨emptyStore, []⟩
      = (Outcome.ret (), ⟨emptyStore,
          [Call.SetDefaults { helloRoute with AppName := "an-app-name-of-31-characters-xx" },
           Call.Validate ⟨some { helloRoute with AppName := "an-app-name-of-31-characters-xx" }⟩
            false] ++
          [Call.GetApp "an-app-name-of-31-characters-xx",
           Call.AppValidate ⟨"an-app-name-of-31-characters-xx"⟩,
           Call.JSON http.StatusInternalServerError
            (Payload.simpleError (Err.other "App name must be 30 characters or less"))]⟩) :=
  ⟨(handleRouteCreateOrUpdate_app_invalid (memServer false none none) asciiUpper
      (request "POST" (some ⟨some { helloRoute with Path := "" }⟩) (some "myapp") none)
      ⟨emptyStore, []⟩ rfl).2.2.1 { helloRoute with Path := "" } "myapp"
      (Err.other "Missing route Path") rfl rfl (by decide) (by decide),
   (handleRouteCreateOrUpdate_app_invalid (memServer false none none) asciiUpper
      (request "POST" (some ⟨some helloRoute⟩) (some "an-app-name-of-31-characters-xx") none)
      ⟨emptyStore, []⟩ rfl).2.2.2
      { helloRoute with AppName := "an-app-name-of-31-characters-xx" }
      ⟨emptyStore,
        [Call.SetDefaults { helloRoute with AppName := "an-app-name-of-31-characters-xx" },
         Call.Validate
          ⟨some { helloRoute with AppName := "an-app-name-of-31-characters-xx" }⟩ false]⟩
      (Err.other "App name must be 30 characters or less")
      (Or.inl (by decide)) (by decide) (by decide) (by decide) (by decide)⟩

end server

namespace server

open models

variable {σ : Type}

/-- A list of calls of the three steps holds no `cacheRefresh`. -/
theorem countP_cacheRefresh_steps (lb la lr : List Call)
    (hlb : ∀ x ∈ lb, x.isBind = true) (hla : ∀ x ∈ la, x.isApp = true)
    (hlr : ∀ x ∈ lr, x.isRoute = true) :
    (lb ++ la ++ lr).countP Call.isCacheRefresh = 0 := by
  rw [List.countP_eq_zero]
  intro x hx
  simp only [List.mem_append] at hx
  rcases hx with (hx | hx) | hx
  · have := hlb x hx
    cases x <;> simp_all [Call.isBind, Call.isCacheRefresh]
  · have := hla x hx
    cases x <;> simp_all [Call.isApp, Call.isCacheRefresh]
  · have := hlr x hx
    cases x <;> simp_all [Call.isRoute, Call.isCacheRefresh]

/-- When `updateOrInsertRoute` returns no error for POST, PUT or PATCH, the route of the
response is the route returned by the datastore operation that succeeded. -/
theorem updateOrInsertRoute_success_route (s : Server σ) (method : String)
    (wroute : RouteWrapper) (st st3 : St σ) (resp : routeResponse)
    (hu : updateOrInsertRoute s method wroute st = ((resp, none), st3)) :
    (method = http.MethodPost →
      (s.Datastore.InsertRoute wroute.Route st.ds).1 = (resp.Route, none)) ∧
    (method = http.MethodPatch →
      (s.Datastore.UpdateRoute wroute.Route st.ds).1 = (resp.Route, none)) ∧
    (method = http.MethodPut →
      (s.Datastore.UpdateRoute wroute.Route st.ds).1 = (resp.Route, none) ∨
      ((s.Datastore.UpdateRoute wroute.Route st.ds).1.2 = some Err.ErrRoutesNotFound ∧
        (s.Datastore.InsertRoute wroute.Route
          (s.Datastore.UpdateRoute wroute.Route st.ds).2).1 = (resp.Route, none))) := by
  have h1 := congrArg (fun r => r.1.1.Route) hu
  have h2 := congrArg (fun r => r.1.2) hu
  simp only at h1 h2
  refine ⟨?_, ?_, ?_⟩
  · intro hm
    subst hm
    simp only [updateOrInsertRoute, if_true, St.call] at h1 h2
    exact Prod.ext h1 h2
  · intro hm
    subst hm
    have hne1 : ¬ (http.MethodPatch = http.MethodPost) := by decide
    have hne2 : ¬ (http.MethodPatch = http.MethodPut) := by decide
    simp only [updateOrInsertRoute, hne1, hne2, if_false, if_true, St.call] at h1 h2
    exact Prod.ext h1 h2
  · intro hm
    subst hm
    have hne : ¬ (http.MethodPut = http.MethodPost) := by decide
    by_cases hnf : (s.Datastore.UpdateRoute wroute.Route st.ds).1.2
        = some Err.ErrRoutesNotFound
    · right
      simp only [updateOrInsertRoute, hne, if_false, if_true, St.call, hnf] at h1 h2
      exact ⟨hnf, Prod.ext h1 h2⟩
    · left
      simp only [updateOrInsertRoute, hne, if_false, if_true, St.call, hnf] at h1 h2
      exact Prod.ext h1 h2

/-- C16: `cacheRefresh` is called exactly once when the route write succeeds, with the
route of the response, and right before the 200 response; for POST, PUT and PATCH that
route is the one returned by the datastore operation that succeeded.  It is not called
when the bind step, `createApp` or `updateOrInsertRoute` fails.  (The `l` below are the
calls the handler adds to the log.) -/
theorem handleRouteCreateOrUpdate_cacheRefresh (s : Server σ) (ToUpper : String → String)
    (c : Context) (st : St σ) (hctx : c.ctx = true) :
    (∀ w1 st1 st2 resp st3,
      bindAndValidate s c (ToUpper c.Method) ⟨none⟩ st = (Outcome.ret none, w1, st1) →
      createApp s w1 (ToUpper c.Method) st1 = (Outcome.ret none, st2) →
      updateOrInsertRoute s (ToUpper c.Method) w1 st2 = ((resp, none), st3) →
      (∃ l, (handleRouteCreateOrUpdate s ToUpper c st).2.calls
            = st.calls ++ (l ++ [Call.cacheRefresh resp.Route,
                Call.JSON http.StatusOK (Payload.resp resp)]) ∧
          (l ++ [Call.cacheRefresh resp.Route,
            Call.JSON http.StatusOK (Payload.resp resp)]).countP Call.isCacheRefresh = 1) ∧
      (ToUpper c.Method = http.MethodPost →
        (s.Datastore.InsertRoute w1.Route st2.ds).1 = (resp.Route, none)) ∧
      (ToUpper c.Method = http.MethodPatch →
        (s.Datastore.UpdateRoute w1.Route st2.ds).1 = (resp.Route, none)) ∧
      (ToUpper c.Method = http.MethodPut →
        (s.Datastore.UpdateRoute w1.Route st2.ds).1 = (resp.Route, none) ∨
        ((s.Datastore.UpdateRoute w1.Route st2.ds).1.2 = some Err.ErrRoutesNotFound ∧
          (s.Datastore.InsertRoute w1.Route
            (s.Datastore.UpdateRoute w1.Route st2.ds).2).1 = (resp.Route, none)))) ∧
    (∀ e w1 st1,
      bindAndValidate s c (ToUpper c.Method) ⟨none⟩ st = (Outcome.ret (some e), w1, st1) →
      ∃ l, (handleRouteCreateOrUpdate s ToUpper c st).2.calls = st.calls ++ l ∧
        l.countP Call.isCacheRefresh = 0) ∧
    (∀ e w1 st1 st2,
      bindAndValidate s c (ToUpper c.Method) ⟨none⟩ st = (Outcome.ret none, w1, st1) →
      createApp s w1 (ToUpper c.Method) st1 = (Outcome.ret (some e), st2) →
      ∃ l, (handleRouteCreateOrUpdate s ToUpper c st).2.calls = st.calls ++ l ∧
        l.countP Call.isCacheRefresh = 0) ∧
    (∀ e w1 st1 st2 resp st3,
      bindAndValidate s c (ToUpper c.Method) ⟨none⟩ st = (Outcome.ret none, w1, st1) →
      createApp s w1 (ToUpper c.Method) st1 = (Outcome.ret none, st2) →
      updateOrInsertRoute s (ToUpper c.Method) w1 st2 = ((resp, some e), st3) →
      ∃ l, (handleRouteCreateOrUpdate s ToUpper c st).2.calls = st.calls ++ l ∧
        l.countP Call.isCacheRefresh = 0) := by
  refine ⟨?_, ?_, ?_, ?_⟩
  · intro w1 st1 st2 resp st3 hb ha hu
    obtain ⟨_, lb, hl, hlb⟩ := bindAndValidate_frame s c (ToUpper c.Method) ⟨none⟩ st
    obtain ⟨la, hl2, hla⟩ := createApp_frame s w1 (ToUpper c.Method) st1
    obtain ⟨lr, hl3, hlr⟩ := updateOrInsertRoute_frame s (ToUpper c.Method) w1 st2
    rw [hb] at hl
    rw [ha] at hl2
    rw [hu] at hl3
    simp only at hl hl2 hl3
    refine ⟨⟨lb ++ la ++ lr, ?_, ?_⟩,
      updateOrInsertRoute_success_route s (ToUpper c.Method) w1 st2 st3 resp hu⟩
    · rw [handle_ok s ToUpper c st st1 st2 st3 w1 resp hctx hb ha hu]
      simp [St.log, hl, hl2, hl3]
    · rw [List.countP_append, countP_cacheRefresh_steps lb la lr hlb hla hlr]
      simp [List.countP_cons, Call.isCacheRefresh]
  · intro e w1 st1 hb
    obtain ⟨_, lb, hl, hlb⟩ := bindAndValidate_frame s c (ToUpper c.Method) ⟨none⟩ st
    rw [hb] at hl
    simp only at hl
    refine ⟨lb ++ [] ++ [] ++
      [Call.JSON http.StatusBadRequest (Payload.simpleError e)], ?_, ?_⟩
    · rw [handle_bind_fails s ToUpper c st st1 e w1 hctx hb]
      simp [St.log, hl]
    · rw [List.countP_append, countP_cacheRefresh_steps lb [] [] hlb (by simp) (by simp)]
      simp [List.countP_cons, Call.isCacheRefresh]
  · intro e w1 st1 st2 hb ha
    obtain ⟨_, lb, hl, hlb⟩ := bindAndValidate_frame s c (ToUpper c.Method) ⟨none⟩ st
    obtain ⟨la, hl2, hla⟩ := createApp_frame s w1 (ToUpper c.Method) st1
    rw [hb] at hl
    rw [ha] at hl2
    simp only at hl hl2
    refine ⟨lb ++ la ++ [] ++
      [Call.JSON http.StatusInternalServerError (Payload.simpleError e)], ?_, ?_⟩
    · rw [handle_app_fails s ToUpper c st st1 st2 e w1 hctx hb ha]
      simp [St.log, hl, hl2]
    · rw [List.countP_append, countP_cacheRefresh_steps lb la [] hlb hla (by simp)]
      simp [List.countP_cons, Call.isCacheRefresh]
  · intro e w1 st1 st2 resp st3 hb ha hu
    obtain ⟨_, lb, hl, hlb⟩ := bindAndValidate_frame s c (ToUpper c.Method) ⟨none⟩ st
    obtain ⟨la, hl2, hla⟩ := createApp_frame s w1 (ToUpper c.Method) st1
    obtain ⟨lr, hl3, hlr⟩ := updateOrInsertRoute_frame s (ToUpper c.Method) w1 st2
    rw [hb] at hl
    rw [ha] at hl2
    rw [hu] at hl3
    simp only at hl hl2 hl3
    refine ⟨lb ++ la ++ lr ++ [Call.handleErrorResponse e], ?_, ?_⟩
    · rw [handle_route_fails s ToUpper c st st1 st2 st3 e w1 resp hctx hb ha hu]
      simp [St.log, hl, hl2, hl3]
    · rw [List.countP_append, countP_cacheRefresh_steps lb la lr hlb hla hlr]
      simp [List.countP_cons, Call.isCacheRefresh]

/-- Witness for C16: `PUT /apps/myapp/routes/hello` on the empty store creates the app and
the route; the cache is refreshed once, with the inserted route. -/
theorem handleRouteCreateOrUpdate_cacheRefresh_witness :
    ∃ l, (handleRouteCreateOrUpdate (memServer false none none) asciiUpper
          (request "put" (some ⟨some helloRoute⟩) (some "myapp") (some "/hello"))
          ⟨emptyStore, []⟩).2.calls
        = [] ++ (l ++ [Call.cacheRefresh (some helloRoute),
            Call.JSON http.StatusOK
              (Payload.resp ⟨"Route successfully created", some helloRoute⟩)]) ∧
      (l ++ [Call.cacheRefresh (some helloRoute),
          Call.JSON http.StatusOK
            (Payload.resp ⟨"Route successfully created", some helloRoute⟩)]).countP
        Call.isCacheRefresh = 1 :=
  ((handleRouteCreateOrUpdate_cacheRefresh (memServer false none none) asciiUpper
    (request "put" (some ⟨some helloRoute⟩) (some "myapp") (some "/hello"))
    ⟨emptyStore, []⟩ rfl).1 ⟨some helloRoute⟩
    ⟨emptyStore, [Call.SetDefaults helloRoute, Call.Validate ⟨some helloRoute⟩ false]⟩
    ⟨⟨[⟨"myapp"⟩], []⟩, [Call.SetDefaults helloRoute, Call.Validate ⟨some helloRoute⟩ false,
      Call.GetApp "myapp", Call.AppValidate ⟨"myapp"⟩, Call.FireBeforeAppCreate ⟨"myapp"⟩,
      Call.InsertApp ⟨"myapp"⟩, Call.FireAfterAppCreate ⟨"myapp"⟩]⟩
    ⟨"Route successfully created", some helloRoute⟩
    ⟨⟨[⟨"myapp"⟩], [helloRoute]⟩, [Call.SetDefaults helloRoute,
      Call.Validate ⟨some helloRoute⟩ false,
      Call.GetApp "myapp", Call.AppValidate ⟨"myapp"⟩, Call.FireBeforeAppCreate ⟨"myapp"⟩,
      Call.InsertApp ⟨"myapp"⟩, Call.FireAfterAppCreate ⟨"myapp"⟩,
      Call.UpdateRoute (some helloRoute), Call.InsertRoute (some helloRoute)]⟩
    (by decide) (by decide) (by decide)).1

end server

namespace server

open models

variable {σ : Type}

/-- For a wrapper with a route, the calls `createApp` makes are an initial part of:
`GetApp` for the app name of the route, the validation of the new app of that name, the
pre-creation hook on the app as the validation left it, `InsertApp` on the app as that
hook left it, and the post-creation hook on the app as `InsertApp` left it. -/
theorem createApp_calls_prefix (s : Server σ) (route : Route) (method : String) (st : St σ) :
    ∃ l, (createApp s ⟨some route⟩ method st).2.calls = st.calls ++ l ∧
      l <+: [Call.GetApp route.AppName, Call.AppValidate ⟨route.AppName⟩,
        Call.FireBeforeAppCreate (s.AppValidate ⟨route.AppName⟩).2,
        Call.InsertApp (s.FireBeforeAppCreate (s.AppValidate ⟨route.AppName⟩).2
          (s.Datastore.GetApp route.AppName st.ds).2).1.2,
        Call.FireAfterAppCreate (s.Datastore.InsertApp
          (s.FireBeforeAppCreate (s.AppValidate ⟨route.AppName⟩).2
            (s.Datastore.GetApp route.AppName st.ds).2).1.2
          (s.FireBeforeAppCreate (s.AppValidate ⟨route.AppName⟩).2
            (s.Datastore.GetApp route.AppName st.ds).2).2).1.2] := by
  unfold createApp
  simp only [St.log, St.call]
  repeat' split
  all_goals try simp only [List.append_assoc, List.cons_append, List.nil_append,
    List.singleton_append]
  all_goals first
    | exact ⟨_, rfl, _, rfl⟩
    | exact ⟨[], (List.append_nil _).symm, _, rfl⟩

/-- The in-memory server follows the `*App` pointer: when the pre-creation hook renames the
new app, `InsertApp` and the post-creation hook are called on the renamed app, and that is
the app the store then holds. -/
theorem createApp_follows_pointer :
    createApp (memServerRenaming (some "renamed") false none none) ⟨some helloRoute⟩
        http.MethodPost ⟨emptyStore, []⟩
      = (Outcome.ret none,
          ⟨⟨[⟨"renamed"⟩], []⟩, [Call.GetApp "myapp", Call.AppValidate ⟨"myapp"⟩,
            Call.FireBeforeAppCreate ⟨"myapp"⟩, Call.InsertApp ⟨"renamed"⟩,
            Call.FireAfterAppCreate ⟨"renamed"⟩]⟩) := by
  decide

/-- C13: for every method, a body that decodes to a wrapper with the route `r` and a URL
app name `app`:
* two requests that differ only in the `AppName` of the body (`r.AppName` and `n2`) give
  the same result of `bindAndValidate` (the same outcome, the same wrapper, the same log),
  and so the same run of `createApp` on the bound wrapper;
* whatever the outcome, the wrapper holds after binding a route `ρ` with the app name
  `app` and nothing was logged, or it holds `SetDefaults ρ` for such a `ρ`, which was
  handed to `SetDefaults` and the result to `Validate`;
* so when `SetDefaults` leaves the app name alone, the route of the wrapper after binding
  has the app name `app`, whatever the outcome;
* and then the calls of `createApp` on that wrapper are an initial part of: `GetApp app`,
  the validation of the new app named `app`, and the hooks and `InsertApp` on the app as
  the call before left it; when the validation, the pre-creation hook and `InsertApp`
  leave the name of the app alone, every call names the app `app`. -/
theorem bindAndValidate_appName (s : Server σ) (c1 c2 : Context) (method : String)
    (w0 : RouteWrapper) (st : St σ) (r : Route) (n2 app : String)
    (hB1 : c1.BindJSON w0 = (none, ⟨some r⟩))
    (hB2 : c2.BindJSON w0 = (none, ⟨some { r with AppName := n2 }⟩))
    (hA1 : c1.AppName = some app) (hA2 : c2.AppName = some app)
    (hP : c1.Path = c2.Path) :
    bindAndValidate s c1 method w0 st = bindAndValidate s c2 method w0 st ∧
    (∀ stA, createApp s (bindAndValidate s c1 method w0 st).2.1 method stA
      = createApp s (bindAndValidate s c2 method w0 st).2.1 method stA) ∧
    (∃ ρ : Route, ρ.AppName = app ∧
      (((bindAndValidate s c1 method w0 st).2.1 = ⟨some ρ⟩ ∧
          (bindAndValidate s c1 method w0 st).2.2 = st) ∨
        ((bindAndValidate s c1 method w0 st).2.1 = ⟨some (s.SetDefaults ρ)⟩ ∧
          (bindAndValidate s c1 method w0 st).2.2.calls = st.calls ++
            [Call.SetDefaults ρ,
             Call.Validate ⟨some (s.SetDefaults ρ)⟩ (decide (method = http.MethodPatch))]))) ∧
    ((∀ x, (s.SetDefaults x).AppName = x.AppName) →
      (∃ ρ : Route, (bindAndValidate s c1 method w0 st).2.1 = ⟨some ρ⟩ ∧ ρ.AppName = app) ∧
      ∀ stA, ∃ la,
        (createApp s (bindAndValidate s c1 method w0 st).2.1 method stA).2.calls
          = stA.calls ++ la ∧
        la <+: [Call.GetApp app, Call.AppValidate ⟨app⟩,
          Call.FireBeforeAppCreate (s.AppValidate ⟨app⟩).2,
          Call.InsertApp (s.FireBeforeAppCreate (s.AppValidate ⟨app⟩).2
            (s.Datastore.GetApp app stA.ds).2).1.2,
          Call.FireAfterAppCreate (s.Datastore.InsertApp
            (s.FireBeforeAppCreate (s.AppValidate ⟨app⟩).2
              (s.Datastore.GetApp app stA.ds).2).1.2
            (s.FireBeforeAppCreate (s.AppValidate ⟨app⟩).2
              (s.Datastore.GetApp app stA.ds).2).2).1.2] ∧
        ((∀ a, (s.AppValidate a).2.Name = a.Name) →
          (∀ a ds, (s.FireBeforeAppCreate a ds).1.2.Name = a.Name) →
          (∀ a ds, (s.Datastore.InsertApp a ds).1.2.Name = a.Name) →
          ∀ x ∈ la, x ∈ [Call.GetApp app, Call.AppValidate ⟨app⟩,
            Call.FireBeforeAppCreate ⟨app⟩, Call.InsertApp ⟨app⟩,
            Call.FireAfterAppCreate ⟨app⟩])) := by
  have h1 : bindAndValidate s c1 method w0 st = bindAndValidate s c2 method w0 st := by
    simp only [bindAndValidate, hB1, hB2, hA1, hA2, hP, ne_eq, not_true_eq_false, if_false]
  have h3 : ∃ ρ : Route, ρ.AppName = app ∧
      (((bindAndValidate s c1 method w0 st).2.1 = ⟨some ρ⟩ ∧
          (bindAndValidate s c1 method w0 st).2.2 = st) ∨
        ((bindAndValidate s c1 method w0 st).2.1 = ⟨some (s.SetDefaults ρ)⟩ ∧
          (bindAndValidate s c1 method w0 st).2.2.calls = st.calls ++
            [Call.SetDefaults ρ,
             Call.Validate ⟨some (s.SetDefaults ρ)⟩
              (decide (method = http.MethodPatch))])) := by
    by_cases hm : method = http.MethodPut ∨ method = http.MethodPatch
    · cases hPa : c1.Path with
      | none =>
        refine ⟨{ r with AppName := app }, rfl, Or.inl ?_⟩
        simp [bindAndValidate, hB1, hA1, hPa, hm]
      | some u =>
        by_cases hc : r.Path = "" ∨ r.Path = path.Clean u
        · rw [bindAndValidate_update s c1 method w0 st r app u hB1 hA1 hPa hm hc]
          exact ⟨{ r with AppName := app, Path := path.Clean u }, rfl, Or.inr ⟨rfl, rfl⟩⟩
        · push_neg at hc
          rw [bindAndValidate_immutable s c1 method w0 st r app u hB1 hA1 hPa hm hc.1 hc.2]
          exact ⟨{ r with AppName := app }, rfl, Or.inl ⟨rfl, rfl⟩⟩
    · push_neg at hm
      rw [bindAndValidate_create s c1 method w0 st r app hB1 hA1 hm.1 hm.2]
      exact ⟨{ r with AppName := app }, rfl, Or.inr ⟨rfl, rfl⟩⟩
  refine ⟨h1, ?_, h3, ?_⟩
  · intro stA
    rw [h1]
  · intro hSD
    have key : ∃ ρ : Route, (bindAndValidate s c1 method w0 st).2.1 = ⟨some ρ⟩ ∧
        ρ.AppName = app := by
      obtain ⟨ρ, hρ, h | h⟩ := h3
      · exact ⟨ρ, h.1, hρ⟩
      · exact ⟨s.SetDefaults ρ, h.1, by rw [hSD, hρ]⟩
    refine ⟨key, ?_⟩
    intro stA
    obtain ⟨ρ, hw, hn⟩ := key
    rw [hw]
    obtain ⟨la, hl, hpre⟩ := createApp_calls_prefix s ρ method stA
    rw [hn] at hpre
    refine ⟨la, hl, hpre, ?_⟩
    intro kV kB kI x hx
    have e1 : (s.AppValidate ⟨app⟩).2 = ⟨app⟩ := by
      have := kV ⟨app⟩
      cases hh : (s.AppValidate ⟨app⟩).2
      rw [hh] at this
      simp only at this
      rw [this]
    have e2 : ∀ ds, (s.FireBeforeAppCreate ⟨app⟩ ds).1.2 = ⟨app⟩ := by
      intro ds
      have := kB ⟨app⟩ ds
      cases hh : (s.FireBeforeAppCreate ⟨app⟩ ds).1.2
      rw [hh] at this
      simp only at this
      rw [this]
    have e3 : ∀ ds, (s.Datastore.InsertApp ⟨app⟩ ds).1.2 = ⟨app⟩ := by
      intro ds
      have := kI ⟨app⟩ ds
      cases hh : (s.Datastore.InsertApp ⟨app⟩ ds).1.2
      rw [hh] at this
      simp only at this
      rw [this]
    have hmem := hpre.subset hx
    rw [e1, e2, e3] at hmem
    exact hmem

/-- Witness for C13: two POST requests for the app `myapp` of the URL, whose bodies name
the apps `myapp` and `other`, are bound to the same result, and the route bound from the
body that names `other` has the app name `myapp`. -/
theorem bindAndValidate_appName_witness :
    bindAndValidate (memServer false none none)
        (request "POST" (some ⟨some { helloRoute with AppName := "other" }⟩) (some "myapp")
          none)
        http.MethodPost ⟨none⟩ ⟨emptyStore, []⟩
      = bindAndValidate (memServer false none none)
        (request "POST" (some ⟨some helloRoute⟩) (some "myapp") none)
        http.MethodPost ⟨none⟩ ⟨emptyStore, []⟩ ∧
    ∃ ρ : Route, (bindAndValidate (memServer false none none)
        (request "POST" (some ⟨some { helloRoute with AppName := "other" }⟩) (some "myapp")
          none)
        http.MethodPost ⟨none⟩ ⟨emptyStore, []⟩).2.1 = ⟨some ρ⟩ ∧ ρ.AppName = "myapp" :=
  ⟨(bindAndValidate_appName (memServer false none none)
      (request "POST" (some ⟨some { helloRoute with AppName := "other" }⟩) (some "myapp")
        none)
      (request "POST" (some ⟨some helloRoute⟩) (some "myapp") none)
      http.MethodPost ⟨none⟩ ⟨emptyStore, []⟩ { helloRoute with AppName := "other" } "myapp"
      "myapp" rfl rfl rfl rfl rfl).1,
   ((bindAndValidate_appName (memServer false none none)
      (request "POST" (some ⟨some { helloRoute with AppName := "other" }⟩) (some "myapp")
        none)
      (request "POST" (some ⟨some helloRoute⟩) (some "myapp") none)
      http.MethodPost ⟨none⟩ ⟨emptyStore, []⟩ { helloRoute with AppName := "other" } "myapp"
      "myapp" rfl rfl rfl rfl rfl).2.2.2 (fun _ => rfl)).1⟩

end server

namespace server

open models

variable {σ : Type}

/-- C14: for a request that reaches validation (the body decodes to a wrapper with the
route `r`, the URL app name is `app`, and for PUT and PATCH the path check passes),
`bindAndValidate` calls `Validate` once, after `SetDefaults`, with the flag `true` for
PATCH and `false` for PUT and for POST, and returns the answer of that call unchanged. -/
theorem bindAndValidate_partial_flag (s : Server σ) (c : Context) (method : String)
    (w0 : RouteWrapper) (st : St σ) (r : Route) (app : String)
    (hB : c.BindJSON w0 = (none, ⟨some r⟩)) (hA : c.AppName = some app) :
    (∀ u, c.Path = some u → r.Path = "" ∨ r.Path = path.Clean u →
      (method = http.MethodPatch →
        ∃ r2 w, (bindAndValidate s c method w0 st).2.2.calls
            = st.calls ++ [Call.SetDefaults r2, Call.Validate w true] ∧
          (bindAndValidate s c method w0 st).1 = Outcome.ret (s.Validate w true)) ∧
      (method = http.MethodPut →
        ∃ r2 w, (bindAndValidate s c method w0 st).2.2.calls
            = st.calls ++ [Call.SetDefaults r2, Call.Validate w false] ∧
          (bindAndValidate s c method w0 st).1 = Outcome.ret (s.Validate w false))) ∧
    (method = http.MethodPost →
      ∃ r2 w, (bindAndValidate s c method w0 st).2.2.calls
          = st.calls ++ [Call.SetDefaults r2, Call.Validate w false] ∧
        (bindAndValidate s c method w0 st).1 = Outcome.ret (s.Validate w false)) ∧
    (∃ l, (bindAndValidate s c method w0 st).2.2.calls = st.calls ++ l ∧
      ∀ w skipZero, Call.Validate w skipZero ∈ l →
        (skipZero = true ↔ method = http.MethodPatch) ∧
        (bindAndValidate s c method w0 st).1 = Outcome.ret (s.Validate w skipZero)) := by
  refine ⟨?_, ?_, ?_⟩
  · intro u hP hc
    constructor
    · intro hm
      rw [bindAndValidate_update s c method w0 st r app u hB hA hP (Or.inr hm) hc]
      have hd : decide (method = http.MethodPatch) = true := by simp [hm]
      rw [hd]
      exact ⟨_, _, rfl, rfl⟩
    · intro hm
      rw [bindAndValidate_update s c method w0 st r app u hB hA hP (Or.inl hm) hc]
      have hd : decide (method = http.MethodPatch) = false := by rw [hm]; decide
      rw [hd]
      exact ⟨_, _, rfl, rfl⟩
  · intro hm
    have h1 : method ≠ http.MethodPut := by rw [hm]; decide
    have h2 : method ≠ http.MethodPatch := by rw [hm]; decide
    rw [bindAndValidate_create s c method w0 st r app hB hA h1 h2]
    have hd : decide (method = http.MethodPatch) = false := by simp [h2]
    rw [hd]
    exact ⟨_, _, rfl, rfl⟩
  · by_cases hm : method = http.MethodPut ∨ method = http.MethodPatch
    · cases hPa : c.Path with
      | none =>
        refine ⟨[], ?_, by simp⟩
        simp [bindAndValidate, hB, hA, hPa, hm]
      | some u =>
        by_cases hc : r.Path = "" ∨ r.Path = path.Clean u
        · rw [bindAndValidate_update s c method w0 st r app u hB hA hPa hm hc]
          refine ⟨_, rfl, ?_⟩
          intro w skipZero hx
          simp only [List.mem_cons, Call.Validate.injEq, List.mem_singleton,
            List.not_mem_nil, or_false, reduceCtorEq, false_or] at hx
          obtain ⟨hw, hs⟩ := hx
          subst hw
          subst hs
          exact ⟨by simp, rfl⟩
        · push_neg at hc
          rw [bindAndValidate_immutable s c method w0 st r app u hB hA hPa hm hc.1 hc.2]
          exact ⟨[], by simp, by simp⟩
    · push_neg at hm
      rw [bindAndValidate_create s c method w0 st r app hB hA hm.1 hm.2]
      refine ⟨_, rfl, ?_⟩
      intro w skipZero hx
      simp only [List.mem_cons, Call.Validate.injEq, List.mem_singleton,
        List.not_mem_nil, or_false, reduceCtorEq, false_or] at hx
      obtain ⟨hw, hs⟩ := hx
      subst hw
      subst hs
      exact ⟨by simp, rfl⟩

/-- Witness for C14: a PATCH with an empty body path is validated with the flag `true`
and passes, the same body sent with PUT is validated with the flag `false`. -/
theorem bindAndValidate_partial_flag_witness :
    (∃ r2 w, (bindAndValidate (memServer false none none)
          (request "PATCH" (some ⟨some { helloRoute with Path := "" }⟩) (some "myapp")
            (some "/hello"))
          http.MethodPatch ⟨none⟩ ⟨helloStore, []⟩).2.2.calls
        = [] ++ [Call.SetDefaults r2, Call.Validate w true] ∧
      (bindAndValidate (memServer false none none)
          (request "PATCH" (some ⟨some { helloRoute with Path := "" }⟩) (some "myapp")
            (some "/hello"))
          http.MethodPatch ⟨none⟩ ⟨helloStore, []⟩).1
        = Outcome.ret ((memServer false none none).Validate w true)) :=
  ((bindAndValidate_partial_flag (memServer false none none)
    (request "PATCH" (some ⟨some { helloRoute with Path := "" }⟩) (some "myapp")
      (some "/hello"))
    http.MethodPatch ⟨none⟩ ⟨helloStore, []⟩ { helloRoute with Path := "" } "myapp"
    rfl rfl).1 "/hello" rfl (Or.inl rfl)).1 rfl

/-- C15: the error `updateOrInsertRoute` returns is the error of the last datastore call it
made.  POST: the one `InsertRoute`.  PATCH: the one `UpdateRoute`.  PUT: the one
`UpdateRoute` when its error is not `ErrRoutesNotFound`; when it is, the error of the
`InsertRoute` that follows, and that is the last call. -/
theorem updateOrInsertRoute_error (s : Server σ) (wroute : RouteWrapper) (st : St σ) :
    ((updateOrInsertRoute s http.MethodPost wroute st).1.2
        = (s.Datastore.InsertRoute wroute.Route st.ds).1.2 ∧
      (updateOrInsertRoute s http.MethodPost wroute st).2.calls
        = st.calls ++ [Call.InsertRoute wroute.Route]) ∧
    ((updateOrInsertRoute s http.MethodPatch wroute st).1.2
        = (s.Datastore.UpdateRoute wroute.Route st.ds).1.2 ∧
      (updateOrInsertRoute s http.MethodPatch wroute st).2.calls
        = st.calls ++ [Call.UpdateRoute wroute.Route]) ∧
    ((s.Datastore.UpdateRoute wroute.Route st.ds).1.2 ≠ some Err.ErrRoutesNotFound →
      (updateOrInsertRoute s http.MethodPut wroute st).1.2
        = (s.Datastore.UpdateRoute wroute.Route st.ds).1.2 ∧
      (updateOrInsertRoute s http.MethodPut wroute st).2.calls
        = st.calls ++ [Call.UpdateRoute wroute.Route]) ∧
    ((s.Datastore.UpdateRoute wroute.Route st.ds).1.2 = some Err.ErrRoutesNotFound →
      (updateOrInsertRoute s http.MethodPut wroute st).1.2
        = (s.Datastore.InsertRoute wroute.Route
            (s.Datastore.UpdateRoute wroute.Route st.ds).2).1.2 ∧
      (updateOrInsertRoute s http.MethodPut wroute st).2.calls
        = st.calls ++ [Call.UpdateRoute wroute.Route, Call.InsertRoute wroute.Route]) := by
  have h1 : ¬ (http.MethodPatch = http.MethodPost) := by decide
  have h2 : ¬ (http.MethodPatch = http.MethodPut) := by decide
  have h3 : ¬ (http.MethodPut = http.MethodPost) := by decide
  refine ⟨?_, ?_, ?_, ?_⟩
  · simp [updateOrInsertRoute, St.call]
  · simp [updateOrInsertRoute, St.call, h1, h2]
  · intro h
    simp [updateOrInsertRoute, St.call, h3, h]
  · intro h
    simp [updateOrInsertRoute, St.call, h3, h]

/-- C17: when the body does not decode, `bindAndValidate` returns `ErrInvalidJSON`; when it
decodes to a wrapper without a route, it returns `ErrRoutesMissingNew`.  In both cases the
state and the log are untouched, and the result is the same for any other server and any
other context that decodes the body alike: the URL app name and path (which may be
absent), `SetDefaults` and `Validate` play no part. -/
theorem bindAndValidate_decode_errors (s : Server σ) (c : Context) (method : String)
    (w0 : RouteWrapper) (st : St σ) :
    ((c.BindJSON w0).1 ≠ none →
      bindAndValidate s c method w0 st
        = (Outcome.ret (some Err.ErrInvalidJSON), (c.BindJSON w0).2, st) ∧
      ∀ (s2 : Server σ) (c2 : Context), c2.BindJSON w0 = c.BindJSON w0 →
        bindAndValidate s2 c2 method w0 st = bindAndValidate s c method w0 st) ∧
    ((c.BindJSON w0).1 = none → (c.BindJSON w0).2.Route = none →
      bindAndValidate s c method w0 st
        = (Outcome.ret (some Err.ErrRoutesMissingNew), (c.BindJSON w0).2, st) ∧
      ∀ (s2 : Server σ) (c2 : Context), c2.BindJSON w0 = c.BindJSON w0 →
        bindAndValidate s2 c2 method w0 st = bindAndValidate s c method w0 st) := by
  constructor
  · intro hB
    refine ⟨bindAndValidate_invalid s c method w0 st hB, ?_⟩
    intro s2 c2 h2
    rw [bindAndValidate_invalid s c method w0 st hB,
      bindAndValidate_invalid s2 c2 method w0 st (by rw [h2]; exact hB), h2]
  · intro hB hR
    refine ⟨bindAndValidate_missing s c method w0 st hB hR, ?_⟩
    intro s2 c2 h2
    rw [bindAndValidate_missing s c method w0 st hB hR,
      bindAndValidate_missing s2 c2 method w0 st (by rw [h2]; exact hB)
        (by rw [h2]; exact hR), h2]

/-- Witness for C17: a body that does not decode, and the body `{}`, on a request that
carries neither app name nor path. -/
theorem bindAndValidate_decode_errors_witness :
    bindAndValidate (memServer false none none) (request "PUT" none none none)
        http.MethodPut ⟨none⟩ ⟨emptyStore, []⟩
      = (Outcome.ret (some Err.ErrInvalidJSON), ⟨none⟩, ⟨emptyStore, []⟩) ∧
    bindAndValidate (memServer false none none) (request "PUT" (some ⟨none⟩) none none)
        http.MethodPut ⟨none⟩ ⟨emptyStore, []⟩
      = (Outcome.ret (some Err.ErrRoutesMissingNew), ⟨none⟩, ⟨emptyStore, []⟩) :=
  ⟨((bindAndValidate_decode_errors (memServer false none none) (request "PUT" none none none)
      http.MethodPut ⟨none⟩ ⟨emptyStore, []⟩).1 (by decide)).1,
   ((bindAndValidate_decode_errors (memServer false none none)
      (request "PUT" (some ⟨none⟩) none none)
      http.MethodPut ⟨none⟩ ⟨emptyStore, []⟩).2 rfl rfl).1⟩

end server

namespace server

open models

variable {σ : Type}

/-- C18: for POST and PUT, when `GetApp` returns an error other than `ErrAppsNotFound`,
`createApp` returns `ErrAppsGet` whether or not an app came with the error, and `GetApp`
is the only call made.  When `GetApp` returns `ErrAppsNotFound`, the lookup-failure exit is
not taken: with an app the result is `nil`, and without one more calls follow `GetApp`; as
long as the app validation never answers `ErrAppsGet` itself, the result is not
`ErrAppsGet`. -/
theorem createApp_lookup_error (s : Server σ) (route : Route) (method : String) (st : St σ)
    (hm : method = http.MethodPost ∨ method = http.MethodPut) :
    (∀ e, (s.Datastore.GetApp route.AppName st.ds).1.2 = some e → e ≠ Err.ErrAppsNotFound →
      createApp s ⟨some route⟩ method st
        = (Outcome.ret (some Err.ErrAppsGet),
            ⟨(s.Datastore.GetApp route.AppName st.ds).2,
             st.calls ++ [Call.GetApp route.AppName]⟩)) ∧
    ((s.Datastore.GetApp route.AppName st.ds).1.2 = some Err.ErrAppsNotFound →
      ((s.Datastore.GetApp route.AppName st.ds).1.1 ≠ none →
        createApp s ⟨some route⟩ method st
          = (Outcome.ret none,
              ⟨(s.Datastore.GetApp route.AppName st.ds).2,
               st.calls ++ [Call.GetApp route.AppName]⟩)) ∧
      ((s.Datastore.GetApp route.AppName st.ds).1.1 = none →
        ∃ l, (createApp s ⟨some route⟩ method st).2.calls
          = st.calls ++ Call.GetApp route.AppName :: Call.AppValidate ⟨route.AppName⟩ :: l) ∧
      ((∀ a, (s.AppValidate a).1 ≠ some Err.ErrAppsGet) →
        (createApp s ⟨some route⟩ method st).1 ≠ Outcome.ret (some Err.ErrAppsGet))) := by
  constructor
  · intro e he hne
    have hc : (s.Datastore.GetApp route.AppName st.ds).1.2 ≠ none ∧
        (s.Datastore.GetApp route.AppName st.ds).1.2 ≠ some Err.ErrAppsNotFound := by
      rw [he]
      simp [hne]
    simp only [createApp, hm, not_true_eq_false, if_false, St.call]
    rw [if_pos hc]
  · intro he
    have hc : ¬ ((s.Datastore.GetApp route.AppName st.ds).1.2 ≠ none ∧
        (s.Datastore.GetApp route.AppName st.ds).1.2 ≠ some Err.ErrAppsNotFound) := by
      rw [he]
      simp
    refine ⟨?_, ?_, ?_⟩
    · intro ha
      simp only [createApp, hm, not_true_eq_false, if_false, St.call]
      rw [if_neg hc, if_neg ha]
    · intro ha
      simp only [createApp, hm, not_true_eq_false, if_false, St.call, St.log]
      rw [if_neg hc, if_pos ha]
      repeat' split
      all_goals simp only [List.append_assoc, List.cons_append, List.nil_append,
        List.singleton_append]
      all_goals exact ⟨_, rfl⟩
    · intro hV
      simp only [createApp, hm, not_true_eq_false, if_false, St.call, St.log]
      rw [if_neg hc]
      repeat' split
      all_goals first
        | (intro h
           simp only [Outcome.ret.injEq, Option.some.injEq] at h
           subst h
           exact hV _ (by assumption))
        | simp_all

/-- Witness for C18: on the empty store `GetApp` answers `ErrAppsNotFound` for a POST, the
app is created, and the result is `nil`, not `ErrAppsGet`. -/
theorem createApp_lookup_error_witness :
    (createApp (memServer false none none) ⟨some helloRoute⟩ http.MethodPost
        ⟨emptyStore, []⟩).1 ≠ Outcome.ret (some Err.ErrAppsGet) :=
  ((createApp_lookup_error (memServer false none none) helloRoute http.MethodPost
    ⟨emptyStore, []⟩ (Or.inl rfl)).2 (by decide)).2.2
    (by intro a; simp only [memServer, memServerRenaming]; split_ifs <;> simp)

/-- C19: for PUT and PATCH, when the path of the body is not empty and equals the URL path
`u` character for character, the path check is passed exactly when `path.Clean u = u`:
then the route goes on to `SetDefaults` and `Validate`; otherwise `bindAndValidate` returns
`ErrRoutesPathImmutable` and does nothing else.  For the URL path `/hello/`, whose clean
form is `/hello`, the body path `/hello/` is rejected and the body path `/hello` is
accepted. -/
theorem bindAndValidate_exact_url_path (s : Server σ) (c : Context) (method : String)
    (w0 : RouteWrapper) (st : St σ) (r : Route) (app u : String)
    (hB : c.BindJSON w0 = (none, ⟨some r⟩)) (hA : c.AppName = some app)
    (hP : c.Path = some u)
    (hm : method = http.MethodPut ∨ method = http.MethodPatch)
    (hne : r.Path ≠ "") (heq : r.Path = u) :
    (path.Clean u = u →
      (bindAndValidate s c method w0 st).2.2.calls = st.calls ++
        [Call.SetDefaults { r with AppName := app, Path := u },
         Call.Validate ⟨some (s.SetDefaults { r with AppName := app, Path := u })⟩
          (decide (method = http.MethodPatch))] ∧
      (bindAndValidate s c method w0 st).1
        = Outcome.ret (s.Validate ⟨some (s.SetDefaults { r with AppName := app, Path := u })⟩
            (decide (method = http.MethodPatch)))) ∧
    (path.Clean u ≠ u →
      bindAndValidate s c method w0 st
        = (Outcome.ret (some Err.ErrRoutesPathImmutable),
            ⟨some { r with AppName := app }⟩, st)) ∧
    path.Clean "/hello/" = "/hello" ∧
    (bindAndValidate (memServer false none none)
        (request "PUT" (some ⟨some { helloRoute with Path := "/hello/" }⟩) (some "myapp")
          (some "/hello/"))
        http.MethodPut ⟨none⟩ ⟨helloStore, []⟩).1
      = Outcome.ret (some Err.ErrRoutesPathImmutable) ∧
    bindAndValidate (memServer false none none)
        (request "PUT" (some ⟨some { helloRoute with Path := "/hello" }⟩) (some "myapp")
          (some "/hello/"))
        http.MethodPut ⟨none⟩ ⟨helloStore, []⟩
      = (Outcome.ret none, ⟨some helloRoute⟩,
          ⟨helloStore, [Call.SetDefaults helloRoute,
            Call.Validate ⟨some helloRoute⟩ false]⟩) := by
  refine ⟨?_, ?_, by decide, by decide, by decide⟩
  · intro hcl
    rw [bindAndValidate_update s c method w0 st r app u hB hA hP hm
      (Or.inr (by rw [hcl, heq])), hcl]
    exact ⟨rfl, rfl⟩
  · intro hcl
    exact bindAndValidate_immutable s c method w0 st r app u hB hA hP hm hne
      (by rw [heq]; exact fun h => hcl h.symm)

/-- Witness for C19: `PATCH /apps/myapp/routes/hello/` with the body path `/hello/`. -/
theorem bindAndValidate_exact_url_path_witness :
    bindAndValidate (memServer false none none)
        (request "PATCH" (some ⟨some { helloRoute with Path := "/hello/" }⟩) (some "myapp")
          (some "/hello/"))
        http.MethodPatch ⟨none⟩ ⟨helloStore, []⟩
      = (Outcome.ret (some Err.ErrRoutesPathImmutable),
          ⟨some { { helloRoute with Path := "/hello/" } with AppName := "myapp" }⟩,
          ⟨helloStore, []⟩) :=
  (bindAndValidate_exact_url_path (memServer false none none)
    (request "PATCH" (some ⟨some { helloRoute with Path := "/hello/" }⟩) (some "myapp")
      (some "/hello/"))
    http.MethodPatch ⟨none⟩ ⟨helloStore, []⟩ { helloRoute with Path := "/hello/" } "myapp"
    "/hello/" rfl rfl rfl (Or.inr rfl) (by decide) rfl).2.1 (by decide)

/-- C20: for a method other than "POST", "PUT" and "PATCH", `updateOrInsertRoute` makes no
datastore call (state and log are unchanged) and returns no error, the message
"Route successfully created" and a `nil` route. -/
theorem updateOrInsertRoute_other_method (s : Server σ) (method : String)
    (wroute : RouteWrapper) (st : St σ)
    (h1 : method ≠ http.MethodPost) (h2 : method ≠ http.MethodPut)
    (h3 : method ≠ http.MethodPatch) :
    updateOrInsertRoute s method wroute st
      = ((⟨"Route successfully created", none⟩, none), st) := by
  simp [updateOrInsertRoute, h1, h2, h3]

/-- Witness for C20: the lower-case method "put" and the empty method. -/
theorem updateOrInsertRoute_other_method_witness :
    updateOrInsertRoute (memServer false none none) "put" ⟨some helloRoute⟩ ⟨emptyStore, []⟩
      = ((⟨"Route successfully created", none⟩, none), ⟨emptyStore, []⟩) ∧
    updateOrInsertRoute (memServer false none none) "" ⟨some helloRoute⟩ ⟨emptyStore, []⟩
      = ((⟨"Route successfully created", none⟩, none), ⟨emptyStore, []⟩) :=
  ⟨updateOrInsertRoute_other_method (memServer false none none) "put" ⟨some helloRoute⟩
      ⟨emptyStore, []⟩ (by decide) (by decide) (by decide),
   updateOrInsertRoute_other_method (memServer false none none) "" ⟨some helloRoute⟩
      ⟨emptyStore, []⟩ (by decide) (by decide) (by decide)⟩

end server
